import Mathlib

/-!
# Verification of the spreadsheet structure-recovery pipeline

Shallow embedding of the core pipeline of this repository:

* `header-detector` (`detectHeaderRow`, `scoreRow`, `inferColumnType`,
  `isIdLikeColumnName`, `sanitizeColumnName`, `checkNullable`, `isDateString`),
* `sheet-classifier` (`classifySheet`, `scanForMatrixPattern`, `scoreAsTable`),
* `matrix-normalizer` (`normalizeMatrix`, `findPeriodColumns`,
  `isPeriodLikeHeader`, `detectSectionMarker`, `findCategory`,
  `isEmptyRow`, `formatDepartmentName`, `createBasicNormalization`),
* the aggregate analyzer (`analyzeMatrixStructure`, `parseAnalysisResponse`).

Modelling conventions:

* A JavaScript cell value (`string | number | boolean | Date | null`) becomes
  the inductive `CellValue`.  `undefined` (out-of-range access, holes in the
  sparse arrays produced by the sheet parser) is modelled by `CellValue.null`:
  every heuristic of the pipeline treats the two alike (they are compared with
  `=== null`, `=== undefined`, or skipped as holes by `Array.prototype.filter`).
* JavaScript numbers are modelled by `Rat`.  All number comparisons performed
  by the code are of the form `count / total > 0.5`, `k >= n * 0.7`,
  `count > n * 0.8`, or `round(score / 25 * 100)` with small integer inputs;
  for these the IEEE-double computation agrees with exact rational arithmetic
  (the exact value is never within a ulp of the decision boundary), so the
  comparisons are embedded as exact integer comparisons
  (`2*c > t`, `10*k ≥ 7*n`, `5*c > 4*t`, `min 100 (4*score)`).
* Regular-expression tests are expanded into explicit character-list scans
  (`\b` is a transition between a word character `[A-Za-z0-9_]` and a
  non-word character or the string edge; `/x/i` lower-cases both sides).
* `Date` cells carry an opaque integer payload (epoch milliseconds); no claim
  depends on it.  JavaScript stringification of numbers and dates (used only
  to *name* pass-through columns, never consulted by any claim) is given a
  deterministic rendering.
-/

/-- JavaScript cell value: `string | number | boolean | Date | null`.
`undefined` is identified with `null` (see module comment). -/
inductive CellValue where
  | str (s : String)
  | num (q : Rat)
  | bool (b : Bool)
  | date (t : Int)
  | null
deriving DecidableEq, Repr

/-- Storage types used by `ColumnInfo.type` in `lib/types`. -/
inductive ColType where
  | varchar
  | integer
  | double
  | boolean
  | date
  | timestamp
deriving DecidableEq, Repr

/-- `ColumnInfo` from `lib/types`. -/
structure ColumnInfo where
  name : String
  originalName : String
  type : ColType
  nullable : Bool
  sampleValues : List CellValue
deriving DecidableEq, Repr

/-- `row[i]`: out-of-range access yields `undefined`, modelled as `null`. -/
def cellAt (row : List CellValue) (i : Nat) : CellValue :=
  (row.get? i).getD CellValue.null

/-- The pervasive `cell !== null && cell !== ''` emptiness test. -/
def isNonEmptyCell (c : CellValue) : Bool :=
  match c with
  | .null => false
  | .str s => s ≠ ""
  | _ => true

/-- `typeof cell === 'number'`. -/
def isNumericCell (c : CellValue) : Bool :=
  match c with
  | .num _ => true
  | _ => false

-- ===========================================================================
-- Character and regex helpers
-- ===========================================================================

/-- Regex word character `\w = [A-Za-z0-9_]`. -/
def isWordChar (c : Char) : Bool :=
  c.isAlpha || c.isDigit || c = '_'

/-- A `\b` boundary on the side of an optional neighbouring character:
holds at the string edge or next to a non-word character. -/
def boundaryB (o : Option Char) : Bool :=
  match o with
  | none => true
  | some c => !(isWordChar c)

/-- `/w/` as a plain (unanchored, case-sensitive) substring test, on char
lists.  For `/w/i`, both sides are lower-cased by the caller. -/
def hasInfixChars (pat : List Char) : List Char → Bool
  | [] => pat.isEmpty
  | c :: rest => pat.isPrefixOf (c :: rest) || hasInfixChars pat rest

/-- `/pat/i.test(s)` for a plain-word pattern: case-insensitive substring. -/
def containsCI (s : String) (pat : String) : Bool :=
  hasInfixChars (pat.toList.map Char.toLower) (s.toList.map Char.toLower)

/-- `\bw\b` occurrence scan: `w` (already lower-cased) occurs somewhere in the
(already lower-cased) text with word boundaries on both sides.  `prev` is the
character just before the current scan position. -/
def hasBoundedWord (w : List Char) : Option Char → List Char → Bool
  | _, [] => false
  | prev, c :: rest =>
    (boundaryB prev && w.isPrefixOf (c :: rest)
      && boundaryB ((c :: rest).drop w.length).head?)
    || hasBoundedWord w (some c) rest

/-- `/\b(w1|w2|...)\b/i.test(s)` for alternations of plain words. -/
def testWordsCI (words : List String) (s : String) : Bool :=
  let ls := s.toList.map Char.toLower
  words.any fun w => hasBoundedWord (w.toList.map Char.toLower) none ls

/-- `/\bL[d..d]\b/i`: a word-bounded letter+digit token (e.g. `Q3`, `H1`)
somewhere in the text.  `letter` is lower case, `digits` the allowed digits. -/
def hasBoundedLetterDigit (letter : Char) (digits : List Char) :
    Option Char → List Char → Bool
  | _, [] => false
  | prev, c :: rest =>
    (decide (c.toLower = letter) && boundaryB prev &&
      (match rest with
       | d :: rest2 => decide (d ∈ digits) && boundaryB rest2.head?
       | [] => false))
    || hasBoundedLetterDigit letter digits (some c) rest

/-- `/^(w1|w2|...)\b/i.test(s)`: one of the words as a word-bounded prefix. -/
def startsWithWordCI (words : List String) (s : String) : Bool :=
  let ls := s.toList.map Char.toLower
  words.any fun w =>
    let wl := w.toList.map Char.toLower
    wl.isPrefixOf ls && boundaryB (ls.drop wl.length).head?

/-- JS `String.prototype.trim` (whitespace; ASCII suffices here).
Implemented on the character list so that it reduces in the kernel. -/
def jsTrim (s : String) : String :=
  String.mk
    (((s.toList.dropWhile Char.isWhitespace).reverse.dropWhile
      Char.isWhitespace).reverse)

/-- `String.prototype.endsWith`, kernel-reducible. -/
def strEndsWith (s suf : String) : Bool :=
  suf.toList.reverse.isPrefixOf s.toList.reverse

/-- `String.prototype.startsWith`, kernel-reducible. -/
def strStartsWith (s pre : String) : Bool :=
  pre.toList.isPrefixOf s.toList

/-- Lower-case a whole string character-wise (JS `toLowerCase`; the strings
involved are ASCII identifiers and header labels). -/
def strToLower (s : String) : String := String.mk (s.toList.map Char.toLower)

-- ===========================================================================
-- header-detector.ts : sanitizeColumnName, isDateString, isIdLikeColumnName
-- ===========================================================================

/-- `.replace(/_+/g, '_')`: collapse runs of underscores. -/
def collapseUnderscores (cs : List Char) : List Char :=
  cs.foldr (fun c acc =>
    if c = '_' ∧ acc.head? = some '_' then acc else c :: acc) []

/-- `.replace(/^_+|_+$/g, '')`: strip leading and trailing underscore runs. -/
def trimUnderscores (cs : List Char) : List Char :=
  ((cs.dropWhile (· = '_')).reverse.dropWhile (· = '_')).reverse

/-- `sanitizeColumnName` from `header-detector.ts` (identical to
`sanitizeName` in the matrix normalizer): lower-case, replace every
non-`[a-z0-9_]` character by `_`, trim edge underscores, collapse runs,
truncate to 64. -/
def sanitizeColumnName (name : String) : String :=
  let cs := (name.toList.map Char.toLower).map fun c =>
    if ('a' ≤ c ∧ c ≤ 'z') ∨ ('0' ≤ c ∧ c ≤ '9') ∨ c = '_' then c else '_'
  String.mk ((collapseUnderscores (trimUnderscores cs)).take 64)

/-- `isDateString` from `header-detector.ts`: the four fixed digit layouts. -/
def isDateString (value : String) : Bool :=
  match value.toList with
  | [a, b, c, d, '-', e, f, '-', g, h] =>
    [a, b, c, d, e, f, g, h].all Char.isDigit
  | [a, b, '/', c, d, '/', e, f, g, h] =>
    [a, b, c, d, e, f, g, h].all Char.isDigit
  | [a, b, '-', c, d, '-', e, f, g, h] =>
    [a, b, c, d, e, f, g, h].all Char.isDigit
  | [a, b, c, d, '/', e, f, '/', g, h] =>
    [a, b, c, d, e, f, g, h].all Char.isDigit
  | _ => false

/-- `isIdLikeColumnName` from `header-detector.ts`. -/
def isIdLikeColumnName (name : String) : Bool :=
  let lower := strToLower name
  strEndsWith lower "_id" || decide (lower = "id")
    || strStartsWith lower "id_" ||
  strEndsWith lower "_code" || strEndsWith lower "_key"
    || strEndsWith lower "_ref" ||
  strEndsWith lower "_no" || strEndsWith lower "_number" ||
  decide (lower = "sku") || decide (lower = "upc") || decide (lower = "isbn")

/-- `checkNullable`: any empty cell in the first 50 sampled rows. -/
def checkNullable (dataRows : List (List CellValue)) (colIndex : Nat) : Bool :=
  (dataRows.take 50).any fun row =>
    match cellAt row colIndex with
    | .null => true
    | .str s => s = ""
    | _ => false

/-- `inferColumnType` from `header-detector.ts`.  The `columnName &&` guard
makes the id-name rule apply only to non-empty names. -/
def inferColumnType (dataRows : List (List CellValue)) (colIndex : Nat)
    (columnName : Option String) : ColType :=
  let idLike : Bool :=
    match columnName with
    | some n => decide (n ≠ "") && isIdLikeColumnName n
    | none => false
  if idLike then .varchar
  else
    let values := ((dataRows.map fun r => cellAt r colIndex).filter
      isNonEmptyCell).take 20
    if values = [] then .varchar
    else if values.any (fun v =>
        match v with
        | .str s => s.toList.any Char.isAlpha
        | _ => false) then .varchar
    else
      let bcount := values.countP fun v =>
        match v with | .bool _ => true | _ => false
      let ncount := values.countP fun v =>
        match v with | .num _ => true | _ => false
      let icount := values.countP fun v =>
        match v with | .num q => q.den = 1 | _ => false
      let dcount := values.countP fun v =>
        match v with | .date _ => true | .str s => isDateString s | _ => false
      let scount := values.countP fun v =>
        match v with | .str s => !(isDateString s) | _ => false
      let total := values.length
      if scount > 0 then .varchar
      else if 10 * bcount ≥ 7 * total then .boolean
      else if 10 * dcount ≥ 7 * total then .date
      else if 10 * icount ≥ 7 * total ∧ icount = ncount then .integer
      else if 10 * ncount ≥ 7 * total then .double
      else .varchar

-- ===========================================================================
-- header-detector.ts : scoreRow / detectHeaderRow / extractColumns
-- ===========================================================================

/-- `RowScore` (the `reasons` strings are pure logging and carry no data used
anywhere; they are omitted). -/
structure RowScore where
  row : Nat
  score : Int
deriving DecidableEq, Repr

/-- `new Set(...).size` over cell values.  JS `Set` compares primitives by
value but `Date` objects by reference, so every `Date` cell counts as a
distinct entry. -/
def distinctCount (l : List CellValue) : Nat :=
  ((l.filter fun c => match c with | .date _ => false | _ => true).dedup).length
    + (l.filter fun c => match c with | .date _ => true | _ => false).length

/-- Header vocabulary of `scoreRow` rule 8. -/
def typicalHeaderWords : List String :=
  ["id", "name", "date", "amount", "price", "quantity", "category", "type",
   "status", "region", "department"]

/-- Total-row vocabulary of `scoreRow` rule 6. -/
def totalWords : List String := ["total", "subtotal", "sum", "grand"]

/-- `scoreRow` from `header-detector.ts`. -/
def scoreRow (data : List (List CellValue)) (rowIndex : Nat) : RowScore :=
  match data.get? rowIndex with
  | none => { row := rowIndex, score := -100 }
  | some row =>
    let nonEmptyCells := (row.filter isNonEmptyCell).length
    let totalCells := row.length
    let stringCells := (row.filter fun c =>
      match c with | .str s => s ≠ "" | _ => false).length
    let s1 : Int := if nonEmptyCells ≥ 3 then (nonEmptyCells : Int) * 2 else 0
    let s2 : Int := if nonEmptyCells = 1 ∧ totalCells > 1 then -15 else 0
    let s3 : Int := if stringCells = nonEmptyCells ∧ nonEmptyCells > 0 then 5 else 0
    let s4 : Int :=
      if distinctCount (row.filter isNonEmptyCell) = nonEmptyCells
          ∧ nonEmptyCells > 1 then 3 else 0
    let s5 : Int :=
      if rowIndex < data.length - 1 then
        let nextRow := (data.get? (rowIndex + 1)).getD []
        let nextNonEmpty := (nextRow.filter isNonEmptyCell).length
        (if 10 * nextNonEmpty ≥ 7 * nonEmptyCells ∧ nextNonEmpty > 0
          then 2 else 0)
        + (if nextRow.any isNumericCell ∧ stringCells = nonEmptyCells
          then 3 else 0)
      else 0
    let s6 : Int :=
      if row.any (fun c => match c with
          | .str s => testWordsCI totalWords s
          | _ => false) then -10 else 0
    let s7 : Int := if rowIndex = 0 ∧ nonEmptyCells ≤ 2 then -3 else 0
    let s8 : Int :=
      if row.any (fun c => match c with
          | .str s => testWordsCI typicalHeaderWords s
          | _ => false) then 4 else 0
    { row := rowIndex, score := s1 + s2 + s3 + s4 + s5 + s6 + s7 + s8 }

/-- The accumulator of `scores.reduce(...)`: keep the current best, replace
only on a strictly larger score (ties keep the earlier row). -/
def pickBest (b c : RowScore) : RowScore := if c.score > b.score then c else b

/-- `Array.prototype.reduce` with no initial value (the score list is
non-empty whenever the grid is). -/
def reduceBest : List RowScore → RowScore
  | [] => { row := 0, score := -100 }
  | s :: rest => rest.foldl pickBest s

/-- Deterministic rendering of `String(value)` for column names.  Faithful
for the string/boolean/integer cells that actually occur as headers; the JS
shortest-round-trip float rendering and the timezone-dependent `Date`
rendering are replaced by deterministic stand-ins (no claim reads them). -/
def jsString (c : CellValue) : String :=
  match c with
  | .str s => s
  | .num q => if q.den = 1 then toString q.num else toString q
  | .bool true => "true"
  | .bool false => "false"
  | .date t => "date_" ++ toString t
  | .null => "null"

/-- `HeaderDetectionResult` (documented in the source as confidence 0–100). -/
structure HeaderDetectionResult where
  headerRow : Nat
  confidence : Int
  columns : List ColumnInfo
deriving DecidableEq, Repr

/-- `extractColumns` from `header-detector.ts`: one `ColumnInfo` per
non-empty header cell, sampling up to 100 rows beneath the header. -/
def extractColumns (data : List (List CellValue)) (headerRow : Nat) :
    List ColumnInfo :=
  let headerRowData := (data.get? headerRow).getD []
  let dataRows := (data.drop (headerRow + 1)).take 100
  (List.range headerRowData.length).filterMap fun colIndex =>
    let headerValue := cellAt headerRowData colIndex
    if headerValue = .null ∨ headerValue = .str "" then none
    else
      let originalName := jsString headerValue
      let sanitizedName := sanitizeColumnName originalName
      let sampleValues := ((dataRows.map fun r => cellAt r colIndex).filter
        (· ≠ CellValue.null)).take 5
      some
        { name := sanitizedName
          originalName := originalName
          type := inferColumnType dataRows colIndex (some sanitizedName)
          nullable := checkNullable dataRows colIndex
          sampleValues := sampleValues }

/-- `detectHeaderRow` from `header-detector.ts`.  The confidence is
`Math.min(100, Math.round(bestScore / 25 * 100))`; since
`score / 25 * 100 = 4 * score` exactly, it is embedded as
`min 100 (4 * score)` (the float error is far below the rounding step). -/
def detectHeaderRow (data : List (List CellValue)) : HeaderDetectionResult :=
  if data.isEmpty then { headerRow := 0, confidence := 0, columns := [] }
  else
    let n := min data.length 25
    let best := reduceBest ((List.range n).map (scoreRow data))
    { headerRow := best.row
      confidence := min 100 (4 * best.score)
      columns := extractColumns data best.row }

-- ===========================================================================
-- sheet-classifier.ts
-- ===========================================================================

/-- `SheetType` from `lib/types`. -/
inductive SheetType where
  | table
  | matrix
  | unknown
deriving DecidableEq, Repr

/-- `ClassificationResult`; the matrix-only fields are optional. -/
structure ClassificationResult where
  sheetType : SheetType
  confidence : Int
  periodHeaders : Option (List String) := none
  labelColumnCount : Option Nat := none
  periodHeaderRow : Option Nat := none
deriving DecidableEq, Repr

/-- `PERIOD_PATTERNS` of `sheet-classifier.ts`, applied to `header.trim()`:
`/^Q[1-4]\s/i`, `/^Q[1-4]$/i`, `/^H[1-2]\s/i`, `/^H[1-2]$/i`, `/\bQ[1-4]\b/i`,
`/\bH[1-2]\b/i`, the month-name prefixes, `/^\d{4}$/`, `/^FY\d{2,4}/i`,
`/budget/i`, `/actual/i`, `/forecast/i`. -/
def isPeriodHeader (header : String) : Bool :=
  let t := jsTrim header
  let l := t.toList
  let startLD (letter : Char) (digits : List Char) (thenWs : Bool) : Bool :=
    match l with
    | a :: b :: rest =>
      decide (a.toLower = letter) && decide (b ∈ digits) &&
        (if thenWs then (match rest with
            | w :: _ => w.isWhitespace
            | [] => false)
          else rest.isEmpty)
    | _ => false
  startLD 'q' ['1', '2', '3', '4'] true ||
  startLD 'q' ['1', '2', '3', '4'] false ||
  startLD 'h' ['1', '2'] true ||
  startLD 'h' ['1', '2'] false ||
  hasBoundedLetterDigit 'q' ['1', '2', '3', '4'] none l ||
  hasBoundedLetterDigit 'h' ['1', '2'] none l ||
  startsWithWordCI
    ["Jan", "Feb", "Mar", "Apr", "May", "Jun", "Jul", "Aug", "Sep", "Oct",
     "Nov", "Dec"] t ||
  startsWithWordCI
    ["January", "February", "March", "April", "May", "June", "July", "August",
     "September", "October", "November", "December"] t ||
  (decide (l.length = 4) && l.all Char.isDigit) ||
  (match l with
   | a :: b :: c :: d :: _ =>
     decide (a.toLower = 'f') && decide (b.toLower = 'y') &&
       c.isDigit && d.isDigit
   | _ => false) ||
  containsCI t "budget" || containsCI t "actual" || containsCI t "forecast"

/-- `SECTION_MARKER_PATTERNS`: `/^[A-Z]{2,}$/` or `/^[A-Z][a-z]+\s+Total$/i`. -/
def isSectionMarkerPattern (s : String) : Bool :=
  let l := s.toList
  (decide (l.length ≥ 2) && l.all fun c => 'A' ≤ c ∧ c ≤ 'Z') ||
  (match l with
   | a :: rest =>
     a.isAlpha &&
       (let letters := rest.takeWhile Char.isAlpha
        let afterLetters := rest.drop letters.length
        let ws := afterLetters.takeWhile Char.isWhitespace
        let afterWs := afterLetters.drop ws.length
        decide (letters.length ≥ 1) && decide (ws.length ≥ 1) &&
          decide ((afterWs.map Char.toLower) = ['t', 'o', 't', 'a', 'l']))
   | [] => false)

/-- Result record of `scanForMatrixPattern`. -/
structure MatrixScanResult where
  isMatrix : Bool
  confidence : Int
  headerRow : Nat
  periodHeaders : List String
  labelColumnCount : Nat
deriving DecidableEq, Repr

/-- The period-header cells of one row (the untrimmed cell text is kept,
exactly as the source pushes `cell`). -/
def periodCellsOfRow (row : List CellValue) : List String :=
  row.filterMap fun c =>
    match c with
    | .str s => if jsTrim s ≠ "" ∧ isPeriodHeader s then some s else none
    | _ => none

/-- The first of the first 10 rows holding ≥ 2 period-header cells. -/
def scanHit (data : List (List CellValue)) : Option (Nat × List String) :=
  ((List.range (min 10 data.length)).map fun i =>
    (i, periodCellsOfRow ((data.get? i).getD []))).find? fun p =>
      p.2.length ≥ 2

/-- `countNumericColumnsInData`: columns (from `skipColumns` on) where more
than half of the non-null sampled cells in the first 10 data rows are
numbers. -/
def countNumericColumnsInData (data : List (List CellValue)) (headerRow : Nat)
    (skipColumns : Nat) : Nat :=
  let dataRows := (data.drop (headerRow + 1)).take 10
  if dataRows = [] then 0
  else
    let colCount := (data.map (·.length)).foldr max 0
    (List.range colCount).countP fun col =>
      skipColumns ≤ col ∧
        let values := (dataRows.map fun row => cellAt row col).filter
          (· ≠ CellValue.null)
        let numericCount := values.countP (isNumericCell ·)
        values.length > 0 ∧ 2 * numericCount > values.length

/-- `scanForMatrixPattern` from `sheet-classifier.ts`. -/
def scanForMatrixPattern (data : List (List CellValue)) : MatrixScanResult :=
  match scanHit data with
  | none =>
    { isMatrix := false, confidence := 0, headerRow := 0, periodHeaders := []
      labelColumnCount := 2 }
  | some (hr, phs) =>
    let dataStartRow := hr + 1
    let window := (List.range 20).filterMap fun k =>
      if dataStartRow + k < data.length
      then some ((data.get? (dataStartRow + k)).getD []) else none
    let emptyFirstColumnCount := window.countP fun row =>
      !(isNonEmptyCell (cellAt row 0))
    let sectionMarkerCount := window.countP fun row =>
      match cellAt row 0 with
      | .str s => s ≠ "" ∧ isSectionMarkerPattern s
      | _ => false
    let rowsChecked := min 20 (data.length - dataStartRow)
    let conf1 : Int := 40
    let conf2 : Int :=
      if rowsChecked > 0 ∧ 2 * emptyFirstColumnCount > rowsChecked
          ∧ sectionMarkerCount ≥ 1 then conf1 + 30 else conf1
    let conf3 : Int :=
      if countNumericColumnsInData data hr 2 ≥ 2 then conf2 + 20 else conf2
    { isMatrix := conf3 ≥ 50, confidence := conf3, headerRow := hr
      periodHeaders := phs, labelColumnCount := 2 }

/-- Dominant-type tags of `analyzeColumnTypes`.  A cell beyond a short row is
`undefined` in JS and *passes* the `v !== null` filter there, so the sampled
entries are kept as `Option CellValue` with `none` for out-of-range. -/
def analyzeColumnTypes (dataRows : List (List CellValue))
    (columnCount : Nat) : List String :=
  (List.range columnCount).map fun col =>
    let values := (dataRows.map fun row => row.get? col).filter
      (· ≠ some CellValue.null)
    if values = [] then "empty"
    else
      let numericCount := values.countP fun o =>
        match o with | some (.num _) => true | _ => false
      let stringCount := values.countP fun o =>
        match o with | some (.str _) => true | _ => false
      if numericCount > stringCount then "number" else "string"

/-- `scoreAsTable` from `sheet-classifier.ts`. -/
def scoreAsTable (headers : List CellValue)
    (dataRows : List (List CellValue)) : Int :=
  let nonEmptyHeaders := headers.filter isNonEmptyCell
  let s1 : Int :=
    if distinctCount nonEmptyHeaders = nonEmptyHeaders.length
        ∧ nonEmptyHeaders.length ≥ 3 then 10 else 0
  let s2 : Int :=
    if dataRows.length > 0 then
      let totalNonEmpty := (dataRows.map fun row =>
        (row.filter isNonEmptyCell).length).sum
      -- avg ≥ H * 0.7  ⟺  10 * Σ ≥ 7 * H * |rows|
      if 10 * totalNonEmpty ≥ 7 * nonEmptyHeaders.length * dataRows.length
      then 10 else 0
    else 0
  let s3 : Int :=
    if headers.any (fun h => match h with
        | .str s => testWordsCI ["id", "code", "number", "key"] s
        | _ => false) then 5 else 0
  let s4 : Int :=
    if dataRows.length > 0 then
      let firstColumnFilled := dataRows.countP fun row =>
        isNonEmptyCell (cellAt row 0)
      -- filled > |rows| * 0.8  ⟺  5 * filled > 4 * |rows|
      if 5 * firstColumnFilled > 4 * dataRows.length then 5 else 0
    else 0
  let s5 : Int :=
    if ((analyzeColumnTypes dataRows headers.length).dedup).length ≥ 2
    then 5 else 0
  s1 + s2 + s3 + s4 + s5

/-- `classifySheet` from `sheet-classifier.ts`. -/
def classifySheet (data : List (List CellValue))
    (suggestedHeaderRow : Nat) : ClassificationResult :=
  if data = [] then { sheetType := .unknown, confidence := 0 }
  else
    let matrixScan := scanForMatrixPattern data
    if matrixScan.isMatrix ∧ matrixScan.confidence > 60 then
      { sheetType := .matrix
        confidence := matrixScan.confidence
        periodHeaders := some matrixScan.periodHeaders
        labelColumnCount := some matrixScan.labelColumnCount
        periodHeaderRow := some matrixScan.headerRow }
    else
      let headers := (data.get? suggestedHeaderRow).getD []
      let dataRows := data.drop (suggestedHeaderRow + 1)
      let tableScore := scoreAsTable headers dataRows
      if tableScore > 10 then
        { sheetType := .table, confidence := min 100 (tableScore * 3) }
      else { sheetType := .unknown, confidence := 0 }

-- ===========================================================================
-- llm/matrix-analyzer.ts : analyzeMatrixStructure
-- ===========================================================================

/-- `MatrixAnalysis` from `llm/matrix-analyzer.ts`.  The index lists are
arbitrary JSON numbers (the parser only filters `typeof n === 'number'`). -/
structure MatrixAnalysis where
  aggregateColumns : List Rat
  aggregateRows : List Rat
  confidence : Rat
  reasoning : Option String := none
deriving DecidableEq, Repr

/-- The default/failure result of the analyzer. -/
def defaultMatrixAnalysis : MatrixAnalysis :=
  { aggregateColumns := [], aggregateRows := [], confidence := 0 }

/-- A parsed JSON value (what `JSON.parse` can yield). -/
inductive JsonVal where
  | null
  | bool (b : Bool)
  | num (q : Rat)
  | str (s : String)
  | arr (xs : List JsonVal)
  | obj (fields : List (String × JsonVal))
deriving Repr

/-- Property access `parsed.key`: defined only on objects (on every other
JSON value the accessed property is `undefined`). -/
def jsonField (v : JsonVal) (key : String) : Option JsonVal :=
  match v with
  | .obj fields => fields.lookup key
  | _ => none

/-- `Array.isArray(x) ? x.filter(n => typeof n === 'number') : []`. -/
def jsonNumArr (o : Option JsonVal) : List Rat :=
  match o with
  | some (.arr xs) => xs.filterMap fun x =>
      match x with | .num q => some q | _ => none
  | _ => []

/-- `response.match(/\{[\s\S]*\}/)`: greedy, so the match runs from the first
`{` to the last `}` (and exists iff some `{` precedes some `}`). -/
def extractJsonBlock (s : String) : Option String :=
  let cs := s.toList
  match cs.findIdx? (· = '{'), cs.reverse.findIdx? (· = '}') with
  | some f, some rl =>
    let l := cs.length - 1 - rl
    if f < l then some (String.mk ((cs.drop f).take (l - f + 1))) else none
  | _, _ => none

/-- `parseAnalysisResponse` from `llm/matrix-analyzer.ts`.  `jp` stands for
the engine's `JSON.parse` applied to the extracted block; `none` models a
parse exception (caught, yielding the default result). -/
def parseAnalysisResponse (jp : String → Option JsonVal)
    (response : String) : MatrixAnalysis :=
  if jsTrim response = "" then defaultMatrixAnalysis
  else
    match extractJsonBlock response with
    | none => defaultMatrixAnalysis
    | some block =>
      match jp block with
      | none => defaultMatrixAnalysis
      | some parsed =>
        { aggregateColumns := jsonNumArr (jsonField parsed "aggregateColumns")
          aggregateRows := jsonNumArr (jsonField parsed "aggregateRows")
          confidence :=
            match jsonField parsed "confidence" with
            | some (.num q) => min 1 (max 0 q)
            | _ => (1 : Rat) / 2
          reasoning :=
            match jsonField parsed "reasoning" with
            | some (.str s) => some s
            | _ => none }

/-- `analyzeMatrixStructure` from `llm/matrix-analyzer.ts`.  The prompt built
from `headers`, `dataRows` and `dataColumnStartIndex` only parametrises the
external LLM request; the response is the oracle input `llmResponse`, with
`none` modelling a thrown/timed-out `generateAnswerCompletion` (the `catch`
branch).  The zero-row early return happens before the call, as in the
source. -/
def analyzeMatrixStructure (headers : List CellValue)
    (dataRows : List (List CellValue)) (dataColumnStartIndex : Nat)
    (llmResponse : Option String) (jp : String → Option JsonVal) :
    MatrixAnalysis :=
  if dataRows = [] then defaultMatrixAnalysis
  else
    match llmResponse with
    | none => defaultMatrixAnalysis
    | some resp => parseAnalysisResponse jp resp

-- ===========================================================================
-- matrix-normalizer (src/unnamed/part_006)
-- ===========================================================================

/-- `MatrixConfig` from the matrix normalizer. -/
structure MatrixConfig where
  periodHeaderRow : Nat
  periodHeaders : List String
  labelColumnCount : Nat
deriving DecidableEq, Repr

/-- `aggregateInfo` of a `NormalizedMatrix`. -/
structure AggregateInfo where
  aggregatePeriods : List String
  aggregateColumnIndices : List Nat
  aggregateRowIndices : List Rat
deriving DecidableEq, Repr

/-- `NormalizedMatrix` from the matrix normalizer. -/
structure NormalizedMatrix where
  columns : List ColumnInfo
  data : List (List CellValue)
  originalHeaders : List String
  hasAggregateColumn : Bool
  aggregateInfo : AggregateInfo
deriving DecidableEq, Repr

/-- A period column: original grid column index and trimmed header text. -/
structure PeriodColumn where
  index : Nat
  header : String
deriving DecidableEq, Repr

/-- `isPeriodLikeHeader` from the matrix normalizer: `/^Q[1-4]/i`,
`/^H[1-2]/i`, `/budget/i`, `/actual/i`, `/forecast/i`, `/total/i`,
tested on the *untrimmed* header. -/
def isPeriodLikeHeader (header : String) : Bool :=
  let l := header.toList
  (match l with
   | a :: b :: _ => decide (a.toLower = 'q') && decide (b ∈ ['1', '2', '3', '4'])
   | _ => false) ||
  (match l with
   | a :: b :: _ => decide (a.toLower = 'h') && decide (b ∈ ['1', '2'])
   | _ => false) ||
  containsCI header "budget" || containsCI header "actual" ||
  containsCI header "forecast" || containsCI header "total"

/-- Index-threaded body of `findPeriodColumns`. -/
def findPeriodColumnsAux (periodHeaders : List String) :
    Nat → List CellValue → List PeriodColumn
  | _, [] => []
  | i, c :: rest =>
    let tail := findPeriodColumnsAux periodHeaders (i + 1) rest
    match c with
    | .str s =>
      if jsTrim s ≠ "" ∧ (s ∈ periodHeaders ∨ isPeriodLikeHeader s)
      then ⟨i, jsTrim s⟩ :: tail
      else tail
    | _ => tail

/-- `findPeriodColumns` from the matrix normalizer: every non-empty string
header cell (at any index) that is listed in `periodHeaders` or looks
period-like. -/
def findPeriodColumns (headerRow : List CellValue)
    (periodHeaders : List String) : List PeriodColumn :=
  findPeriodColumnsAux periodHeaders 0 headerRow

/-- `isEmptyRow`: every cell `null`/`undefined`/`''`. -/
def isEmptyRow (row : List CellValue) : Bool :=
  row.all fun c => !(isNonEmptyCell c)

/-- `detectSectionMarker`: a non-empty all-caps-or-space first cell
(`/^[A-Z\s]{2,}$/` on the trimmed text) with at most one other non-empty
cell; returns the trimmed text. -/
def detectSectionMarker (row : List CellValue) : Option String :=
  match cellAt row 0 with
  | .str s =>
    if jsTrim s = "" then none
    else
      let trimmed := jsTrim s
      let l := trimmed.toList
      if l.length ≥ 2 ∧ l.all (fun c => ('A' ≤ c ∧ c ≤ 'Z') ∨ c.isWhitespace)
      then
        if ((row.drop 1).filter isNonEmptyCell).length ≤ 1
        then some trimmed else none
      else none
  | _ => none

/-- `findCategory` fallback loop: first cell among indices `0..2` holding a
string with non-empty trim. -/
def findCategoryFallback (row : List CellValue) : Option String :=
  ((row.take 3).filterMap fun c =>
    match c with
    | .str s => if jsTrim s ≠ "" then some (jsTrim s) else none
    | _ => none).head?

/-- `findCategory`: prefer column B (`row[1]` truthy string with non-empty
trim), else the fallback scan over the first three cells. -/
def findCategory (row : List CellValue) : Option String :=
  match cellAt row 1 with
  | .str s => if jsTrim s ≠ "" then some (jsTrim s) else findCategoryFallback row
  | _ => findCategoryFallback row

/-- `formatDepartmentName`: `SALES` → `Sales` when all-caps-or-space. -/
def formatDepartmentName (name : String) : String :=
  let l := name.toList
  if l ≠ [] ∧ l.all (fun c => ('A' ≤ c ∧ c ≤ 'Z') ∨ c.isWhitespace)
  then
    match l with
    | c :: rest => String.mk (c :: rest.map Char.toLower)
    | [] => name
  else name

/-- `Set.has` on JS numbers (SameValueZero = rational equality here). -/
def memB (x : Rat) (l : List Rat) : Bool := l.any fun y => decide (y = x)

/-- Inner loop of the normalizer: one output row per period column whose cell
in `row` is a number (null/undefined/`''` and non-number cells emit
nothing).  `i` is the position inside the period-column list, used for the
`periodColumnAggregateStatus[i]` lookup. -/
def emitRowAux (dept category : String) (isAggRow : Bool)
    (row : List CellValue) (status : List Bool) :
    Nat → List PeriodColumn → List (List CellValue)
  | _, [] => []
  | i, pc :: rest =>
    let tail := emitRowAux dept category isAggRow row status (i + 1) rest
    match cellAt row pc.index with
    | .num q =>
      [CellValue.str dept, CellValue.str category, CellValue.str pc.header,
        CellValue.num q, CellValue.bool (isAggRow || status.getD i false)]
        :: tail
    | _ => tail

/-- The per-data-row emission of the normalizer. -/
def emitRow (dept category : String) (isAggRow : Bool)
    (row : List CellValue) (status : List Bool)
    (periodColumns : List PeriodColumn) : List (List CellValue) :=
  emitRowAux dept category isAggRow row status 0 periodColumns

/-- The data-row walk of `normalizeMatrix`: skip empty rows, absorb section
markers into `curDept`, drop category-less rows, emit the rest.  `dri` is the
mutable `dataRowIndex` (incremented on *every* row), `rowIdx` the absolute
grid row index. -/
def processRows (periodColumns : List PeriodColumn) (status : List Bool)
    (aggRows : List Rat) (periodHeaderRow : Nat) :
    List (List CellValue) → Nat → Option String → Nat → List (List CellValue)
  | [], _, _, _ => []
  | row :: rest, rowIdx, curDept, dri =>
    if isEmptyRow row then
      processRows periodColumns status aggRows periodHeaderRow
        rest (rowIdx + 1) curDept (dri + 1)
    else
      match detectSectionMarker row with
      | some marker =>
        processRows periodColumns status aggRows periodHeaderRow
          rest (rowIdx + 1) (some (formatDepartmentName marker)) (dri + 1)
      | none =>
        let isAggRow := memB (dri : Rat) aggRows
          || memB (((rowIdx : Int) - (periodHeaderRow : Int) - 1 : Int) : Rat)
            aggRows
        match findCategory row with
        | none =>
          processRows periodColumns status aggRows periodHeaderRow
            rest (rowIdx + 1) curDept (dri + 1)
        | some category =>
          emitRow (curDept.getD "Unknown") category isAggRow row status
              periodColumns
            ++ processRows periodColumns status aggRows periodHeaderRow
              rest (rowIdx + 1) curDept (dri + 1)

/-- `sanitizeName` from the matrix normalizer (same body as
`sanitizeColumnName`). -/
def sanitizeName (name : String) : String := sanitizeColumnName name

/-- `createBasicNormalization`: pass-through fallback when no period columns
were found. -/
def createBasicNormalization (data : List (List CellValue))
    (headerRow : Nat) : NormalizedMatrix :=
  let headers := (data.get? headerRow).getD []
  let dataRows := data.drop (headerRow + 1)
  { columns := (headers.filter fun h => h ≠ .null ∧ h ≠ .str "").map fun h =>
      { name := sanitizeName (jsString h), originalName := jsString h
        type := .varchar, nullable := true, sampleValues := [] }
    data := dataRows
    originalHeaders := []
    hasAggregateColumn := false
    aggregateInfo :=
      { aggregatePeriods := [], aggregateColumnIndices := []
        aggregateRowIndices := [] } }

/-- The fixed output schema of a normalized matrix. -/
def normalizedMatrixColumns : List ColumnInfo :=
  [ { name := "department", originalName := "Department", type := .varchar
      nullable := false, sampleValues := [] },
    { name := "category", originalName := "Category", type := .varchar
      nullable := false, sampleValues := [] },
    { name := "period", originalName := "Period", type := .varchar
      nullable := false, sampleValues := [] },
    { name := "amount", originalName := "Amount", type := .double
      nullable := false, sampleValues := [] },
    { name := "is_aggregate", originalName := "Is Aggregate", type := .boolean
      nullable := false, sampleValues := [] } ]

/-- Whether a period column at list position `idx` and grid index `col.index`
is flagged aggregate by the analysis. -/
def periodColStatus (aggCols : List Rat) (p : Nat × PeriodColumn) : Bool :=
  memB ((p.2.index : Nat) : Rat) aggCols || memB ((p.1 : Nat) : Rat) aggCols

/-- `normalizeMatrix` from the matrix normalizer (src/unnamed/part_006). -/
def normalizeMatrix (data : List (List CellValue)) (config : MatrixConfig)
    (analysis : Option MatrixAnalysis) : NormalizedMatrix :=
  let headerRow := (data.get? config.periodHeaderRow).getD []
  let periodColumns := findPeriodColumns headerRow config.periodHeaders
  if periodColumns = [] then
    createBasicNormalization data config.periodHeaderRow
  else
    let aggCols := (analysis.map (·.aggregateColumns)).getD []
    let aggRows := (analysis.map (·.aggregateRows)).getD []
    let status := periodColumns.enum.map (periodColStatus aggCols)
    let flagged := periodColumns.enum.filter fun p => periodColStatus aggCols p
    let normalizedData := processRows periodColumns status aggRows
      config.periodHeaderRow (data.drop (config.periodHeaderRow + 1))
      (config.periodHeaderRow + 1) none 0
    { columns := normalizedMatrixColumns
      data := normalizedData
      originalHeaders := periodColumns.map (·.header)
      hasAggregateColumn :=
        match analysis with
        | some a => a.aggregateColumns ≠ [] ∨ a.aggregateRows ≠ []
        | none => false
      aggregateInfo :=
        { aggregatePeriods := flagged.map (·.2.header)
          aggregateColumnIndices := flagged.map (·.2.index)
          aggregateRowIndices := aggRows } }

-- ===========================================================================
-- Helper lemmas
-- ===========================================================================

/-- `scoreRow` always reports the row index it was asked about. -/
lemma scoreRow_row (data : List (List CellValue)) (i : Nat) :
    (scoreRow data i).row = i := by
  unfold scoreRow
  cases data.get? i <;> rfl

/-- `scanForMatrixPattern` never changes the initial `labelColumnCount = 2`. -/
lemma scanForMatrixPattern_labelColumnCount (data : List (List CellValue)) :
    (scanForMatrixPattern data).labelColumnCount = 2 := by
  unfold scanForMatrixPattern
  cases scanHit data with
  | none => rfl
  | some p => rfl

/-- `isMatrix` is exactly `confidence ≥ 50`. -/
lemma scanForMatrixPattern_isMatrix (data : List (List CellValue)) :
    (scanForMatrixPattern data).isMatrix
      = decide ((scanForMatrixPattern data).confidence ≥ 50) := by
  unfold scanForMatrixPattern
  cases scanHit data with
  | none => rfl
  | some p => rfl

/-- In the matrix branch, `classifySheet` copies the scan result. -/
lemma classifySheet_matrix_branch (data : List (List CellValue))
    (r : Nat) (hne : data ≠ [])
    (hconf : 60 < (scanForMatrixPattern data).confidence) :
    classifySheet data r =
      { sheetType := .matrix
        confidence := (scanForMatrixPattern data).confidence
        periodHeaders := some (scanForMatrixPattern data).periodHeaders
        labelColumnCount := some (scanForMatrixPattern data).labelColumnCount
        periodHeaderRow := some (scanForMatrixPattern data).headerRow } := by
  have hm : (scanForMatrixPattern data).isMatrix = true := by
    rw [scanForMatrixPattern_isMatrix]
    simp only [decide_eq_true_eq]
    omega
  unfold classifySheet
  rw [if_neg hne, if_pos ⟨hm, hconf⟩]

/-- Outside the matrix branch the classifier yields TABLE or UNKNOWN. -/
lemma classifySheet_not_matrix (data : List (List CellValue)) (r : Nat)
    (h : ¬(data ≠ [] ∧ 60 < (scanForMatrixPattern data).confidence)) :
    (classifySheet data r).sheetType ≠ SheetType.matrix := by
  unfold classifySheet
  by_cases hne : data = []
  · rw [if_pos hne]; intro hc; exact SheetType.noConfusion hc
  · rw [if_neg hne]
    have hconf : ¬((scanForMatrixPattern data).isMatrix
        ∧ (scanForMatrixPattern data).confidence > 60) := by
      intro ⟨_, hc⟩; exact h ⟨hne, hc⟩
    rw [if_neg hconf]
    dsimp only
    split
    · intro hc; exact SheetType.noConfusion hc
    · intro hc; exact SheetType.noConfusion hc

/-- The classifier marks a sheet MATRIX exactly when the grid is non-empty
and the pre-scan confidence is strictly above 60. -/
lemma classifySheet_matrix_iff (data : List (List CellValue)) (r : Nat) :
    (classifySheet data r).sheetType = SheetType.matrix ↔
      data ≠ [] ∧ 60 < (scanForMatrixPattern data).confidence := by
  constructor
  · intro hm
    by_contra h
    exact classifySheet_not_matrix data r h hm
  · intro ⟨hne, hconf⟩
    rw [classifySheet_matrix_branch data r hne hconf]

/-- Whenever the classifier answers MATRIX it reports `labelColumnCount = 2`. -/
lemma classifySheet_matrix_label_two (data : List (List CellValue)) (r : Nat)
    (hm : (classifySheet data r).sheetType = SheetType.matrix) :
    (classifySheet data r).labelColumnCount = some 2 := by
  obtain ⟨hne, hconf⟩ := (classifySheet_matrix_iff data r).mp hm
  rw [classifySheet_matrix_branch data r hne hconf]
  rw [scanForMatrixPattern_labelColumnCount]


/-- Step equation of the scan at a string cell. -/
lemma findPeriodColumnsAux_cons_str (ph : List String) (i0 : Nat) (s : String)
    (rest : List CellValue) :
    findPeriodColumnsAux ph i0 (CellValue.str s :: rest) =
      if jsTrim s ≠ "" ∧ (s ∈ ph ∨ isPeriodLikeHeader s = true)
      then ⟨i0, jsTrim s⟩ :: findPeriodColumnsAux ph (i0 + 1) rest
      else findPeriodColumnsAux ph (i0 + 1) rest := by
  simp [findPeriodColumnsAux]

/-- Step equation of the scan at a non-string cell. -/
lemma findPeriodColumnsAux_cons_other (ph : List String) (i0 : Nat)
    (c : CellValue) (rest : List CellValue) (hc : ∀ s, c ≠ CellValue.str s) :
    findPeriodColumnsAux ph i0 (c :: rest) =
      findPeriodColumnsAux ph (i0 + 1) rest := by
  cases c with
  | str s => exact absurd rfl (hc s)
  | num q => simp [findPeriodColumnsAux]
  | bool b => simp [findPeriodColumnsAux]
  | date t => simp [findPeriodColumnsAux]
  | null => simp [findPeriodColumnsAux]

/-- Membership in the index-threaded period-column scan. -/
lemma findPeriodColumnsAux_mem (ph : List String) (l : List CellValue) :
    ∀ (i0 : Nat) (pc : PeriodColumn),
      pc ∈ findPeriodColumnsAux ph i0 l ↔
        ∃ j s, l.get? j = some (CellValue.str s) ∧ pc.index = i0 + j ∧
          jsTrim s ≠ "" ∧ (s ∈ ph ∨ isPeriodLikeHeader s = true) ∧
          pc.header = jsTrim s := by
  induction l with
  | nil =>
    intro i0 pc
    simp [findPeriodColumnsAux]
  | cons c rest ih =>
    intro i0 pc
    have shift : (∃ j s, rest.get? j = some (CellValue.str s) ∧
        pc.index = (i0 + 1) + j ∧ jsTrim s ≠ "" ∧
        (s ∈ ph ∨ isPeriodLikeHeader s = true) ∧ pc.header = jsTrim s) ↔
        (∃ j s, (c :: rest).get? j = some (CellValue.str s) ∧ pc.index = i0 + j ∧
          jsTrim s ≠ "" ∧ (s ∈ ph ∨ isPeriodLikeHeader s = true) ∧
          pc.header = jsTrim s ∧ j ≠ 0) := by
      constructor
      · rintro ⟨j, s, hg, hidx, ht, hp, hh⟩
        exact ⟨j + 1, s, by simpa using hg, by omega, ht, hp, hh, by omega⟩
      · rintro ⟨j, s, hg, hidx, ht, hp, hh, hj⟩
        obtain ⟨m, rfl⟩ := Nat.exists_eq_succ_of_ne_zero hj
        exact ⟨m, s, by simpa using hg, by omega, ht, hp, hh⟩
    cases c with
    | str s =>
      rw [findPeriodColumnsAux_cons_str]
      by_cases hcond : jsTrim s ≠ "" ∧ (s ∈ ph ∨ isPeriodLikeHeader s = true)
      · rw [if_pos hcond]
        constructor
        · intro hmem
          rcases List.mem_cons.mp hmem with hhead | htail
          · exact ⟨0, s, rfl, by simp [hhead], hcond.1, hcond.2, by simp [hhead]⟩
          · obtain ⟨j, s', hg, hidx, ht, hp, hh⟩ := (ih (i0 + 1) pc).mp htail
            exact ⟨j + 1, s', by simpa using hg, by omega, ht, hp, hh⟩
        · rintro ⟨j, s', hg, hidx, ht, hp, hh⟩
          cases j with
          | zero =>
            have hs : s' = s := by
              have := hg
              simp at this
              exact this.symm
            subst hs
            have hpc : pc = ⟨i0, jsTrim s'⟩ := by
              cases pc
              simp only [PeriodColumn.mk.injEq]
              constructor
              · simpa using hidx
              · simpa using hh
            rw [hpc]
            exact List.mem_cons_self _ _
          | succ m =>
            refine List.mem_cons_of_mem _ ((ih (i0 + 1) pc).mpr ?_)
            exact ⟨m, s', by simpa using hg, by omega, ht, hp, hh⟩
      · rw [if_neg hcond]
        rw [ih (i0 + 1) pc]
        rw [shift]
        constructor
        · rintro ⟨j, s', hg, hidx, ht, hp, hh, _⟩
          exact ⟨j, s', hg, hidx, ht, hp, hh⟩
        · rintro ⟨j, s', hg, hidx, ht, hp, hh⟩
          refine ⟨j, s', hg, hidx, ht, hp, hh, ?_⟩
          intro hj
          subst hj
          have hs : s' = s := by
            have := hg
            simp at this
            exact this.symm
          subst hs
          exact hcond ⟨ht, hp⟩
    | num q =>
      rw [findPeriodColumnsAux_cons_other ph i0 _ rest (by intro s h; cases h)]
      rw [ih (i0 + 1) pc, shift]
      constructor
      · rintro ⟨j, s', hg, hidx, ht, hp, hh, _⟩
        exact ⟨j, s', hg, hidx, ht, hp, hh⟩
      · rintro ⟨j, s', hg, hidx, ht, hp, hh⟩
        refine ⟨j, s', hg, hidx, ht, hp, hh, ?_⟩
        intro hj
        subst hj
        simp at hg
    | bool b =>
      rw [findPeriodColumnsAux_cons_other ph i0 _ rest (by intro s h; cases h)]
      rw [ih (i0 + 1) pc, shift]
      constructor
      · rintro ⟨j, s', hg, hidx, ht, hp, hh, _⟩
        exact ⟨j, s', hg, hidx, ht, hp, hh⟩
      · rintro ⟨j, s', hg, hidx, ht, hp, hh⟩
        refine ⟨j, s', hg, hidx, ht, hp, hh, ?_⟩
        intro hj
        subst hj
        simp at hg
    | date t =>
      rw [findPeriodColumnsAux_cons_other ph i0 _ rest (by intro s h; cases h)]
      rw [ih (i0 + 1) pc, shift]
      constructor
      · rintro ⟨j, s', hg, hidx, ht, hp, hh, _⟩
        exact ⟨j, s', hg, hidx, ht, hp, hh⟩
      · rintro ⟨j, s', hg, hidx, ht, hp, hh⟩
        refine ⟨j, s', hg, hidx, ht, hp, hh, ?_⟩
        intro hj
        subst hj
        simp at hg
    | null =>
      rw [findPeriodColumnsAux_cons_other ph i0 _ rest (by intro s h; cases h)]
      rw [ih (i0 + 1) pc, shift]
      constructor
      · rintro ⟨j, s', hg, hidx, ht, hp, hh, _⟩
        exact ⟨j, s', hg, hidx, ht, hp, hh⟩
      · rintro ⟨j, s', hg, hidx, ht, hp, hh⟩
        refine ⟨j, s', hg, hidx, ht, hp, hh, ?_⟩
        intro hj
        subst hj
        simp at hg

/-- Membership characterization of `findPeriodColumns`. -/
lemma findPeriodColumns_mem (headerRow : List CellValue) (ph : List String)
    (pc : PeriodColumn) :
    pc ∈ findPeriodColumns headerRow ph ↔
      ∃ s, headerRow.get? pc.index = some (CellValue.str s) ∧
        jsTrim s ≠ "" ∧ (s ∈ ph ∨ isPeriodLikeHeader s = true) ∧
        pc.header = jsTrim s := by
  rw [findPeriodColumns, findPeriodColumnsAux_mem]
  constructor
  · rintro ⟨j, s, hg, hidx, ht, hp, hh⟩
    refine ⟨s, ?_, ht, hp, hh⟩
    rw [hidx]
    simpa using hg
  · rintro ⟨s, hg, ht, hp, hh⟩
    exact ⟨pc.index, s, hg, by omega, ht, hp, hh⟩

/-- Step equation of the data-row walk: empty row. -/
lemma processRows_cons_empty (pcs : List PeriodColumn) (status : List Bool)
    (aggRows : List Rat) (phr : Nat) (row : List CellValue)
    (rest : List (List CellValue)) (rowIdx : Nat) (curDept : Option String)
    (dri : Nat) (h : isEmptyRow row = true) :
    processRows pcs status aggRows phr (row :: rest) rowIdx curDept dri =
      processRows pcs status aggRows phr rest (rowIdx + 1) curDept (dri + 1) := by
  simp [processRows, h]

/-- Step equation of the data-row walk: section-marker row. -/
lemma processRows_cons_marker (pcs : List PeriodColumn) (status : List Bool)
    (aggRows : List Rat) (phr : Nat) (row : List CellValue)
    (rest : List (List CellValue)) (rowIdx : Nat) (curDept : Option String)
    (dri : Nat) (m : String) (h1 : isEmptyRow row = false)
    (h2 : detectSectionMarker row = some m) :
    processRows pcs status aggRows phr (row :: rest) rowIdx curDept dri =
      processRows pcs status aggRows phr rest (rowIdx + 1)
        (some (formatDepartmentName m)) (dri + 1) := by
  simp [processRows, h1, h2]

/-- Step equation of the data-row walk: category-less row (dropped). -/
lemma processRows_cons_nocat (pcs : List PeriodColumn) (status : List Bool)
    (aggRows : List Rat) (phr : Nat) (row : List CellValue)
    (rest : List (List CellValue)) (rowIdx : Nat) (curDept : Option String)
    (dri : Nat) (h1 : isEmptyRow row = false)
    (h2 : detectSectionMarker row = none) (h3 : findCategory row = none) :
    processRows pcs status aggRows phr (row :: rest) rowIdx curDept dri =
      processRows pcs status aggRows phr rest (rowIdx + 1) curDept (dri + 1) := by
  simp [processRows, h1, h2, h3]

/-- Step equation of the data-row walk: data row with a category. -/
lemma processRows_cons_emit (pcs : List PeriodColumn) (status : List Bool)
    (aggRows : List Rat) (phr : Nat) (row : List CellValue)
    (rest : List (List CellValue)) (rowIdx : Nat) (curDept : Option String)
    (dri : Nat) (cat : String) (h1 : isEmptyRow row = false)
    (h2 : detectSectionMarker row = none) (h3 : findCategory row = some cat) :
    processRows pcs status aggRows phr (row :: rest) rowIdx curDept dri =
      emitRow (curDept.getD "Unknown") cat
          (memB (dri : Rat) aggRows
            || memB (((rowIdx : Int) - (phr : Int) - 1 : Int) : Rat) aggRows)
          row status pcs
        ++ processRows pcs status aggRows phr rest (rowIdx + 1) curDept
          (dri + 1) := by
  simp [processRows, h1, h2, h3]

/-- Every list produced by the inner emission loop is a five-field record
whose amount is a numeric cell of the source row at a listed period column,
and whose last field is the aggregate flag. -/
lemma emitRowAux_mem (dept cat : String) (aggR : Bool) (row : List CellValue)
    (status : List Bool) :
    ∀ (pcs : List PeriodColumn) (i : Nat) (out : List CellValue),
      out ∈ emitRowAux dept cat aggR row status i pcs →
        ∃ pc q b, pc ∈ pcs ∧ cellAt row pc.index = CellValue.num q ∧
          out = [CellValue.str dept, CellValue.str cat,
            CellValue.str pc.header, CellValue.num q, CellValue.bool b] := by
  intro pcs
  induction pcs with
  | nil => intro i out hout; simp [emitRowAux] at hout
  | cons pc rest ih =>
    intro i out hout
    rw [emitRowAux] at hout
    rcases hcell : cellAt row pc.index with s | q | b | t | _ <;>
      rw [hcell] at hout
    case num =>
      rcases List.mem_cons.mp hout with hhead | htail
      · exact ⟨pc, q, aggR || status.getD i false, List.mem_cons_self _ _,
          hcell, hhead⟩
      · obtain ⟨pc', q', b', hpc, hc, ho⟩ := ih (i + 1) out htail
        exact ⟨pc', q', b', List.mem_cons_of_mem _ hpc, hc, ho⟩
    all_goals
      obtain ⟨pc', q', b', hpc, hc, ho⟩ := ih (i + 1) out hout
      exact ⟨pc', q', b', List.mem_cons_of_mem _ hpc, hc, ho⟩

/-- The emission loop yields one row per numeric period cell. -/
lemma emitRowAux_length (dept cat : String) (aggR : Bool)
    (row : List CellValue) (status : List Bool) :
    ∀ (pcs : List PeriodColumn) (i : Nat),
      (emitRowAux dept cat aggR row status i pcs).length =
        pcs.countP fun pc => isNumericCell (cellAt row pc.index) := by
  intro pcs
  induction pcs with
  | nil => intro i; simp [emitRowAux]
  | cons pc rest ih =>
    intro i
    rw [emitRowAux, List.countP_cons]
    rcases hcell : cellAt row pc.index with s | q | b | t | _ <;>
      simp [hcell, isNumericCell, ih (i + 1)]

/-- Shape and provenance of every row the walk emits. -/
lemma processRows_mem (pcs : List PeriodColumn) (status : List Bool)
    (aggRows : List Rat) (phr : Nat) :
    ∀ (rows : List (List CellValue)) (rowIdx : Nat) (curDept : Option String)
      (dri : Nat) (out : List CellValue),
      out ∈ processRows pcs status aggRows phr rows rowIdx curDept dri →
        ∃ d c p q b, out = [CellValue.str d, CellValue.str c, CellValue.str p,
            CellValue.num q, CellValue.bool b] ∧
          ∃ r, r ∈ rows ∧ ∃ pc, pc ∈ pcs ∧
            cellAt r pc.index = CellValue.num q ∧ p = pc.header := by
  intro rows
  induction rows with
  | nil => intro rowIdx curDept dri out hout; simp [processRows] at hout
  | cons row rest ih =>
    intro rowIdx curDept dri out hout
    by_cases h1 : isEmptyRow row = true
    · rw [processRows_cons_empty pcs status aggRows phr row rest rowIdx
        curDept dri h1] at hout
      obtain ⟨d, c, p, q, b, ho, r, hr, hrest⟩ := ih _ _ _ out hout
      exact ⟨d, c, p, q, b, ho, r, List.mem_cons_of_mem _ hr, hrest⟩
    · rw [Bool.not_eq_true] at h1
      cases h2 : detectSectionMarker row with
      | some m =>
        rw [processRows_cons_marker pcs status aggRows phr row rest rowIdx
          curDept dri m h1 h2] at hout
        obtain ⟨d, c, p, q, b, ho, r, hr, hrest⟩ := ih _ _ _ out hout
        exact ⟨d, c, p, q, b, ho, r, List.mem_cons_of_mem _ hr, hrest⟩
      | none =>
        cases h3 : findCategory row with
        | none =>
          rw [processRows_cons_nocat pcs status aggRows phr row rest rowIdx
            curDept dri h1 h2 h3] at hout
          obtain ⟨d, c, p, q, b, ho, r, hr, hrest⟩ := ih _ _ _ out hout
          exact ⟨d, c, p, q, b, ho, r, List.mem_cons_of_mem _ hr, hrest⟩
        | some cat =>
          rw [processRows_cons_emit pcs status aggRows phr row rest rowIdx
            curDept dri cat h1 h2 h3] at hout
          rcases List.mem_append.mp hout with hemit | hrec
          · obtain ⟨pc, q, b, hpc, hc, ho⟩ :=
              emitRowAux_mem _ _ _ _ _ _ _ out hemit
            exact ⟨curDept.getD "Unknown", cat, pc.header, q, b, ho,
              row, List.mem_cons_self _ _, pc, hpc, hc, rfl⟩
          · obtain ⟨d, c, p, q, b, ho, r, hr, hrest⟩ := ih _ _ _ out hrec
            exact ⟨d, c, p, q, b, ho, r, List.mem_cons_of_mem _ hr, hrest⟩

-- ===========================================================================
-- Absolute-index variant of the walk (for the row-position analysis)
-- ===========================================================================

/-- Variant of `processRows` that decides row aggregation solely from the
absolute offset `rowIdx - periodHeaderRow - 1` (no threaded counter).  This
is the candidate reading that the data-row position counts *every* grid row
after the header, blank and section-marker rows included. -/
def processRowsAbs (periodColumns : List PeriodColumn) (status : List Bool)
    (aggRows : List Rat) (periodHeaderRow : Nat) :
    List (List CellValue) → Nat → Option String → List (List CellValue)
  | [], _, _ => []
  | row :: rest, rowIdx, curDept =>
    if isEmptyRow row then
      processRowsAbs periodColumns status aggRows periodHeaderRow
        rest (rowIdx + 1) curDept
    else
      match detectSectionMarker row with
      | some marker =>
        processRowsAbs periodColumns status aggRows periodHeaderRow
          rest (rowIdx + 1) (some (formatDepartmentName marker))
      | none =>
        let isAggRow :=
          memB (((rowIdx : Int) - (periodHeaderRow : Int) - 1 : Int) : Rat)
            aggRows
        match findCategory row with
        | none =>
          processRowsAbs periodColumns status aggRows periodHeaderRow
            rest (rowIdx + 1) curDept
        | some category =>
          emitRow (curDept.getD "Unknown") category isAggRow row status
              periodColumns
            ++ processRowsAbs periodColumns status aggRows periodHeaderRow
              rest (rowIdx + 1) curDept

/-- `normalizeMatrix` with the counter-free walk. -/
def normalizeMatrixAbs (data : List (List CellValue)) (config : MatrixConfig)
    (analysis : Option MatrixAnalysis) : NormalizedMatrix :=
  let headerRow := (data.get? config.periodHeaderRow).getD []
  let periodColumns := findPeriodColumns headerRow config.periodHeaders
  if periodColumns = [] then
    createBasicNormalization data config.periodHeaderRow
  else
    let aggCols := (analysis.map (·.aggregateColumns)).getD []
    let aggRows := (analysis.map (·.aggregateRows)).getD []
    let status := periodColumns.enum.map (periodColStatus aggCols)
    let flagged := periodColumns.enum.filter fun p => periodColStatus aggCols p
    let normalizedData := processRowsAbs periodColumns status aggRows
      config.periodHeaderRow (data.drop (config.periodHeaderRow + 1))
      (config.periodHeaderRow + 1) none
    { columns := normalizedMatrixColumns
      data := normalizedData
      originalHeaders := periodColumns.map (·.header)
      hasAggregateColumn :=
        match analysis with
        | some a => a.aggregateColumns ≠ [] ∨ a.aggregateRows ≠ []
        | none => false
      aggregateInfo :=
        { aggregatePeriods := flagged.map (·.2.header)
          aggregateColumnIndices := flagged.map (·.2.index)
          aggregateRowIndices := aggRows } }

/-- Under the invariant `dri = rowIdx - periodHeaderRow - 1` (which holds
from the initial call on), the threaded counter is redundant: both
membership tests of the source coincide. -/
lemma processRows_eq_abs (pcs : List PeriodColumn) (status : List Bool)
    (aggRows : List Rat) (phr : Nat) :
    ∀ (rows : List (List CellValue)) (rowIdx : Nat) (curDept : Option String)
      (dri : Nat), (dri : Int) = (rowIdx : Int) - (phr : Int) - 1 →
      processRows pcs status aggRows phr rows rowIdx curDept dri =
        processRowsAbs pcs status aggRows phr rows rowIdx curDept := by
  intro rows
  induction rows with
  | nil => intro rowIdx curDept dri _; rfl
  | cons row rest ih =>
    intro rowIdx curDept dri hinv
    have hinv' : ((dri + 1 : Nat) : Int)
        = ((rowIdx + 1 : Nat) : Int) - (phr : Int) - 1 := by push_cast; omega
    have hcast : ((dri : Nat) : Rat)
        = (((rowIdx : Int) - (phr : Int) - 1 : Int) : Rat) := by
      rw [show ((dri : Nat) : Rat) = (((dri : Nat) : Int) : Rat) by push_cast; ring]
      rw [hinv]
    by_cases h1 : isEmptyRow row = true
    · rw [processRows_cons_empty _ _ _ _ _ _ _ _ _ h1]
      rw [ih _ _ _ hinv']
      simp [processRowsAbs, h1]
    · rw [Bool.not_eq_true] at h1
      cases h2 : detectSectionMarker row with
      | some m =>
        rw [processRows_cons_marker _ _ _ _ _ _ _ _ _ m h1 h2]
        rw [ih _ _ _ hinv']
        simp [processRowsAbs, h1, h2]
      | none =>
        cases h3 : findCategory row with
        | none =>
          rw [processRows_cons_nocat _ _ _ _ _ _ _ _ _ h1 h2 h3]
          rw [ih _ _ _ hinv']
          simp [processRowsAbs, h1, h2, h3]
        | some cat =>
          rw [processRows_cons_emit _ _ _ _ _ _ _ _ _ cat h1 h2 h3]
          rw [ih _ _ _ hinv']
          simp only [processRowsAbs, h1, h2, h3, Bool.false_eq_true,
            if_false]
          rw [hcast, Bool.or_self]

-- ===========================================================================
-- Lemmas about empty aggregate analyses
-- ===========================================================================

/-- `Set.has` on the empty set. -/
lemma memB_nil (x : Rat) : memB x [] = false := rfl

/-- With no aggregate columns, no period column is flagged. -/
lemma periodColStatus_nil (p : Nat × PeriodColumn) :
    periodColStatus [] p = false := rfl

/-- `getD` of an all-`false` list is `false`. -/
lemma getD_false_of_all_false (l : List Bool) (h : ∀ x ∈ l, x = false)
    (i : Nat) : l.getD i false = false := by
  induction l generalizing i with
  | nil => cases i <;> rfl
  | cons x xs ih =>
    cases i with
    | zero => exact h x (List.mem_cons_self _ _)
    | succ m => exact ih (fun y hy => h y (List.mem_cons_of_mem _ hy)) m

/-- If the row flag is off and the per-column status list is all-`false`,
every emitted record ends in `is_aggregate = false`. -/
lemma emitRowAux_last_false (dept cat : String) (row : List CellValue)
    (status : List Bool) (hst : ∀ x ∈ status, x = false) :
    ∀ (pcs : List PeriodColumn) (i : Nat) (out : List CellValue),
      out ∈ emitRowAux dept cat false row status i pcs →
        out.getLast? = some (CellValue.bool false) := by
  intro pcs
  induction pcs with
  | nil => intro i out hout; simp [emitRowAux] at hout
  | cons pc rest ih =>
    intro i out hout
    rw [emitRowAux] at hout
    rcases hcell : cellAt row pc.index with s | q | b | t | _ <;>
      rw [hcell] at hout
    case num =>
      rcases List.mem_cons.mp hout with hhead | htail
      · rw [hhead, getD_false_of_all_false status hst i]
        rfl
      · exact ih (i + 1) out htail
    all_goals exact ih (i + 1) out hout

/-- With an empty aggregate-row list and an all-`false` status list, every
row the walk emits ends in `is_aggregate = false`. -/
lemma processRows_last_false (pcs : List PeriodColumn) (status : List Bool)
    (phr : Nat) (hst : ∀ x ∈ status, x = false) :
    ∀ (rows : List (List CellValue)) (rowIdx : Nat) (curDept : Option String)
      (dri : Nat) (out : List CellValue),
      out ∈ processRows pcs status [] phr rows rowIdx curDept dri →
        out.getLast? = some (CellValue.bool false) := by
  intro rows
  induction rows with
  | nil => intro rowIdx curDept dri out hout; simp [processRows] at hout
  | cons row rest ih =>
    intro rowIdx curDept dri out hout
    by_cases h1 : isEmptyRow row = true
    · rw [processRows_cons_empty _ _ _ _ _ _ _ _ _ h1] at hout
      exact ih _ _ _ out hout
    · rw [Bool.not_eq_true] at h1
      cases h2 : detectSectionMarker row with
      | some m =>
        rw [processRows_cons_marker _ _ _ _ _ _ _ _ _ m h1 h2] at hout
        exact ih _ _ _ out hout
      | none =>
        cases h3 : findCategory row with
        | none =>
          rw [processRows_cons_nocat _ _ _ _ _ _ _ _ _ h1 h2 h3] at hout
          exact ih _ _ _ out hout
        | some cat =>
          rw [processRows_cons_emit _ _ _ _ _ _ _ _ _ cat h1 h2 h3] at hout
          rcases List.mem_append.mp hout with hemit | hrec
          · rw [memB_nil, memB_nil, Bool.or_self] at hemit
            exact emitRowAux_last_false _ _ _ _ hst _ _ out hemit
          · exact ih _ _ _ out hrec

-- ===========================================================================
-- findCategory on rows without string labels
-- ===========================================================================

/-- `a ∈ l.take n` arises from a position below `n`. -/
lemma mem_take_get? {α : Type} (l : List α) (n : Nat) (a : α)
    (h : a ∈ l.take n) : ∃ i, i < n ∧ l.get? i = some a := by
  induction l generalizing n with
  | nil => simp at h
  | cons x xs ih =>
    cases n with
    | zero => simp at h
    | succ m =>
      rw [List.take_succ_cons] at h
      rcases List.mem_cons.mp h with hx | hxs
      · exact ⟨0, by omega, by simp [hx]⟩
      · obtain ⟨i, hi, hg⟩ := ih m hxs
        exact ⟨i + 1, by omega, by simpa using hg⟩

/-- A row whose first three cells hold no string with non-empty trim has no
category label. -/
lemma findCategory_eq_none (row : List CellValue)
    (h : ∀ i < 3, ∀ s, cellAt row i = CellValue.str s → jsTrim s = "") :
    findCategory row = none := by
  have hfb : findCategoryFallback row = none := by
    rw [findCategoryFallback]
    have hnil : ((row.take 3).filterMap fun c =>
        match c with
        | CellValue.str s => if jsTrim s ≠ "" then some (jsTrim s) else none
        | _ => none) = [] := by
      rw [List.filterMap_eq_nil_iff]
      intro a ha
      obtain ⟨i, hi, hg⟩ := mem_take_get? row 3 a ha
      cases a with
      | str s =>
        have hs : jsTrim s = "" := h i hi s (by unfold cellAt; rw [hg]; rfl)
        simp [hs]
      | num q => rfl
      | bool b => rfl
      | date t => rfl
      | null => rfl
    rw [hnil]
    rfl
  rw [findCategory]
  cases hc : cellAt row 1 with
  | str s =>
    have hs : jsTrim s = "" := h 1 (by omega) s hc
    simp [hs, hfb]
  | num q => exact hfb
  | bool b => exact hfb
  | date t => exact hfb
  | null => exact hfb

-- ===========================================================================
-- The reduce of detectHeaderRow keeps the earliest maximal score
-- ===========================================================================

/-- Specification of `foldl pickBest`: on a score list whose `row` fields
strictly increase (and all exceed the accumulator's), the fold returns an
entry of maximal score, keeping the earliest entry on ties. -/
lemma foldl_pickBest_spec (l : List RowScore) (acc : RowScore)
    (hlt : ∀ x ∈ l, acc.row < x.row)
    (hpw : l.Pairwise fun a b => a.row < b.row) :
    (l.foldl pickBest acc = acc ∨ l.foldl pickBest acc ∈ l) ∧
    (∀ x ∈ acc :: l, x.score ≤ (l.foldl pickBest acc).score) ∧
    ((l.foldl pickBest acc).score = acc.score → l.foldl pickBest acc = acc) ∧
    (∀ x ∈ acc :: l, x.score = (l.foldl pickBest acc).score →
      (l.foldl pickBest acc).row ≤ x.row) := by
  induction l generalizing acc with
  | nil => simp
  | cons c t ih =>
    rw [List.foldl_cons]
    rcases List.pairwise_cons.mp hpw with ⟨hc, hpt⟩
    by_cases h : c.score > acc.score
    · have hpick : pickBest acc c = c := by rw [pickBest, if_pos h]
      rw [hpick]
      obtain ⟨i1, i2, i3, i4⟩ := ih c hc hpt
      refine ⟨?_, ?_, ?_, ?_⟩
      · rcases i1 with h1 | h1
        · exact Or.inr (by rw [h1]; exact List.mem_cons_self _ _)
        · exact Or.inr (List.mem_cons_of_mem _ h1)
      · intro x hx
        have hcle : c.score ≤ (t.foldl pickBest c).score :=
          i2 c (List.mem_cons_self _ _)
        rcases List.mem_cons.mp hx with hxa | hx'
        · rw [hxa]; omega
        · exact i2 x hx'
      · intro heq
        have hcle : c.score ≤ (t.foldl pickBest c).score :=
          i2 c (List.mem_cons_self _ _)
        omega
      · intro x hx hxeq
        rcases List.mem_cons.mp hx with hxa | hx'
        · exfalso
          have hcle : c.score ≤ (t.foldl pickBest c).score :=
            i2 c (List.mem_cons_self _ _)
          rw [hxa] at hxeq
          omega
        · exact i4 x hx' hxeq
    · have hpick : pickBest acc c = acc := by rw [pickBest, if_neg h]
      rw [hpick]
      have hlt' : ∀ x ∈ t, acc.row < x.row := fun x hx =>
        hlt x (List.mem_cons_of_mem _ hx)
      obtain ⟨i1, i2, i3, i4⟩ := ih acc hlt' hpt
      refine ⟨?_, ?_, ?_, ?_⟩
      · rcases i1 with h1 | h1
        · exact Or.inl h1
        · exact Or.inr (List.mem_cons_of_mem _ h1)
      · intro x hx
        have hale : acc.score ≤ (t.foldl pickBest acc).score :=
          i2 acc (List.mem_cons_self _ _)
        rcases List.mem_cons.mp hx with hxa | hx'
        · rw [hxa]
          exact i2 acc (List.mem_cons_self _ _)
        · rcases List.mem_cons.mp hx' with hxc | hxt
          · rw [hxc]; omega
          · exact i2 x (List.mem_cons_of_mem _ hxt)
      · exact i3
      · intro x hx hxeq
        have hale : acc.score ≤ (t.foldl pickBest acc).score :=
          i2 acc (List.mem_cons_self _ _)
        rcases List.mem_cons.mp hx with hxa | hx'
        · rw [hxa] at hxeq ⊢
          exact i4 acc (List.mem_cons_self _ _) hxeq
        · rcases List.mem_cons.mp hx' with hxc | hxt
          · -- tie with the skipped head c: the fold result is acc itself
            have hsc : (t.foldl pickBest acc).score = acc.score := by
              rw [hxc] at hxeq
              omega
            have hacc := i3 hsc
            rw [hacc, hxc]
            exact Nat.le_of_lt (hlt c (List.mem_cons_self _ _))
          · exact i4 x (List.mem_cons_of_mem _ hxt) hxeq

/-- A non-empty grid is not `isEmpty`. -/
lemma isEmpty_false_of_ne_nil {α : Type} (l : List α) (h : l ≠ []) :
    l.isEmpty = false := by
  cases l with
  | nil => exact absurd rfl h
  | cons x xs => rfl

/-- `detectHeaderRow` on a non-empty grid: the reported row is among the
first `min |data| 25` candidates, attains the maximal `scoreRow` score, and
is the earliest candidate attaining it. -/
lemma detectHeaderRow_spec (data : List (List CellValue)) (hne : data ≠ []) :
    (detectHeaderRow data).headerRow < min data.length 25 ∧
    (∀ i < min data.length 25, (scoreRow data i).score ≤
      (scoreRow data (detectHeaderRow data).headerRow).score) ∧
    (∀ i < min data.length 25, (scoreRow data i).score =
      (scoreRow data (detectHeaderRow data).headerRow).score →
        (detectHeaderRow data).headerRow ≤ i) := by
  have hie : data.isEmpty = false := isEmpty_false_of_ne_nil data hne
  have hn1 : 1 ≤ min data.length 25 := by
    have : 1 ≤ data.length := by
      cases data with
      | nil => exact absurd rfl hne
      | cons x xs => simp
    omega
  obtain ⟨m, hm⟩ : ∃ m, min data.length 25 = m + 1 :=
    ⟨min data.length 25 - 1, by omega⟩
  have hdet : detectHeaderRow data =
      { headerRow := (reduceBest ((List.range (min data.length 25)).map
          (scoreRow data))).row
        confidence := min 100 (4 * (reduceBest ((List.range
          (min data.length 25)).map (scoreRow data))).score)
        columns := extractColumns data (reduceBest ((List.range
          (min data.length 25)).map (scoreRow data))).row } := by
    rw [detectHeaderRow, hie]
    rfl
  have hrange : List.range (min data.length 25)
      = 0 :: (List.range m).map Nat.succ := by
    rw [hm, List.range_succ_eq_map]
  have hred : reduceBest ((List.range (min data.length 25)).map
      (scoreRow data)) =
      ((List.range m).map (fun j => scoreRow data (j + 1))).foldl pickBest
        (scoreRow data 0) := by
    rw [hrange, List.map_cons, List.map_map]
    rfl
  have hlt : ∀ x ∈ (List.range m).map (fun j => scoreRow data (j + 1)),
      (scoreRow data 0).row < x.row := by
    intro x hx
    obtain ⟨j, _, rfl⟩ := List.mem_map.mp hx
    rw [scoreRow_row, scoreRow_row]
    omega
  have hpw : ((List.range m).map (fun j => scoreRow data (j + 1))).Pairwise
      fun a b => a.row < b.row := by
    rw [List.pairwise_map]
    refine (List.pairwise_lt_range m).imp ?_
    intro a b hab
    rw [scoreRow_row, scoreRow_row]
    omega
  obtain ⟨i1, i2, i3, i4⟩ := foldl_pickBest_spec
    ((List.range m).map (fun j => scoreRow data (j + 1))) (scoreRow data 0)
    hlt hpw
  set r := ((List.range m).map (fun j => scoreRow data (j + 1))).foldl
    pickBest (scoreRow data 0) with hrdef
  have hmemf : ∀ i < min data.length 25,
      scoreRow data i ∈ scoreRow data 0 ::
        (List.range m).map (fun j => scoreRow data (j + 1)) := by
    intro i hi
    cases i with
    | zero => exact List.mem_cons_self _ _
    | succ j =>
      refine List.mem_cons_of_mem _ (List.mem_map.mpr ⟨j, ?_, rfl⟩)
      rw [List.mem_range]
      omega
  have hrk : ∃ k, k < min data.length 25 ∧ r = scoreRow data k := by
    rcases i1 with h1 | h1
    · exact ⟨0, by omega, h1⟩
    · obtain ⟨j, hj, hx⟩ := List.mem_map.mp h1
      rw [List.mem_range] at hj
      exact ⟨j + 1, by omega, hx.symm⟩
  obtain ⟨k, hk, hreq⟩ := hrk
  have hrrow : r.row = k := by rw [hreq, scoreRow_row]
  have hback : scoreRow data (detectHeaderRow data).headerRow = r := by
    rw [hdet]
    dsimp only
    rw [hred, hrrow, ← hreq]
  refine ⟨?_, ?_, ?_⟩
  · rw [hdet]
    dsimp only
    rw [hred, hrrow]
    exact hk
  · intro i hi
    rw [hback]
    exact i2 (scoreRow data i) (hmemf i hi)
  · intro i hi heq
    rw [hback] at heq
    have := i4 (scoreRow data i) (hmemf i hi) heq
    rw [scoreRow_row] at this
    rw [hdet]
    dsimp only
    rw [hred]
    exact this

-- ===========================================================================
-- Projections of normalizeMatrix
-- ===========================================================================

/-- The fallback keeps the data rows verbatim. -/
lemma createBasicNormalization_data (data : List (List CellValue))
    (headerRow : Nat) :
    (createBasicNormalization data headerRow).data
      = data.drop (headerRow + 1) := rfl

/-- Without period columns, `normalizeMatrix` is the pass-through fallback. -/
lemma normalizeMatrix_fallback (data : List (List CellValue))
    (config : MatrixConfig) (analysis : Option MatrixAnalysis)
    (hpc : findPeriodColumns ((data.get? config.periodHeaderRow).getD [])
      config.periodHeaders = []) :
    normalizeMatrix data config analysis
      = createBasicNormalization data config.periodHeaderRow := by
  simp only [normalizeMatrix]
  rw [if_pos hpc]

/-- With period columns, the output schema is the fixed five-column one. -/
lemma normalizeMatrix_columns (data : List (List CellValue))
    (config : MatrixConfig) (analysis : Option MatrixAnalysis)
    (hpc : findPeriodColumns ((data.get? config.periodHeaderRow).getD [])
      config.periodHeaders ≠ []) :
    (normalizeMatrix data config analysis).columns
      = normalizedMatrixColumns := by
  simp only [normalizeMatrix]
  rw [if_neg hpc]

/-- With period columns, the output rows are produced by the walk. -/
lemma normalizeMatrix_data (data : List (List CellValue))
    (config : MatrixConfig) (analysis : Option MatrixAnalysis)
    (hpc : findPeriodColumns ((data.get? config.periodHeaderRow).getD [])
      config.periodHeaders ≠ []) :
    (normalizeMatrix data config analysis).data
      = processRows
          (findPeriodColumns ((data.get? config.periodHeaderRow).getD [])
            config.periodHeaders)
          ((findPeriodColumns ((data.get? config.periodHeaderRow).getD [])
            config.periodHeaders).enum.map
              (periodColStatus ((analysis.map (·.aggregateColumns)).getD [])))
          ((analysis.map (·.aggregateRows)).getD [])
          config.periodHeaderRow
          (data.drop (config.periodHeaderRow + 1))
          (config.periodHeaderRow + 1) none 0 := by
  simp only [normalizeMatrix]
  rw [if_neg hpc]

-- ===========================================================================
-- Concrete grids used by witnesses and counterexamples
-- ===========================================================================

/-- The matrix example from the normalizer's header comment. -/
def salesGrid : List (List CellValue) :=
  [[.str "", .str "", .str "Q1 Budget", .str "Q2 Budget", .str "H1 Total"],
   [.str "SALES", .null, .null, .null, .null],
   [.null, .str "Salaries", .num 180000, .num 185000, .num 365000],
   [.null, .str "Travel", .num 25000, .num 30000, .num 55000]]

/-- Matrix config matching `salesGrid`. -/
def salesCfg : MatrixConfig :=
  { periodHeaderRow := 0
    periodHeaders := ["Q1 Budget", "Q2 Budget", "H1 Total"]
    labelColumnCount := 2 }

/-- A grid whose matrix pre-scan accumulates exactly 60 confidence points
(+40 period header row, +20 numeric density, no sparse-first-column bonus). -/
def sixtyGrid : List (List CellValue) :=
  [[.str "Q1", .str "Q2", .str "Q3", .str "Q4"],
   [.str "a", .str "b", .num 1, .num 2],
   [.str "c", .str "d", .num 3, .num 4]]

/-- Grid with a blank row between two data rows (header at row 0). -/
def blankGapGrid : List (List CellValue) :=
  [[.str "", .str "", .str "Q1", .str "Q2"],
   [.str "", .str "Cat A", .num 1, .num 2],
   [.str "", .str "", .str "", .str ""],
   [.str "", .str "Cat B", .num 3, .num 4]]

/-- Config for `blankGapGrid`. -/
def blankGapCfg : MatrixConfig :=
  { periodHeaderRow := 0, periodHeaders := ["Q1", "Q2"], labelColumnCount := 2 }

/-- Analysis flagging data-region row position 1 as an aggregate row. -/
def rowOneAnalysis : MatrixAnalysis :=
  { aggregateColumns := [], aggregateRows := [1], confidence := 1 }

/-- Header row whose column 0 reads "Total" (inside the label area). -/
def totalAtZeroHeader : List CellValue :=
  [.str "Total", .str "", .str "Q1", .str "Q2"]

/-- Grid built on `totalAtZeroHeader`. -/
def totalAtZeroGrid : List (List CellValue) :=
  [totalAtZeroHeader, [.str "", .str "Cat", .num 1, .num 2]]

/-- Config for `totalAtZeroGrid` (two label columns). -/
def totalAtZeroCfg : MatrixConfig :=
  { periodHeaderRow := 0, periodHeaders := ["Q1", "Q2"], labelColumnCount := 2 }

/-- A two-row grid for the header-detector witness. -/
def twoRowGrid : List (List CellValue) :=
  [[.str "a"], [.num 1]]

/-- A single title-like row: one non-empty cell in a width-2 row. -/
def titleOnlyGrid : List (List CellValue) :=
  [[.str "x", .str ""]]

/-- A data row holding numbers but no string label in its first three
cells. -/
def numbersOnlyRow : List CellValue := [.num 1, .null, .num 7]

-- ===========================================================================
-- Claims
-- ===========================================================================

/-- **C1.** For every grid and matrix config for which `normalizeMatrix`
finds at least one period column, every row it emits has exactly the fixed
five-field shape (section label, category, period, amount, is_aggregate)
with the amount a numeric, non-null value taken verbatim from a source
period-column cell; and the per-row emission produces exactly one output row
per *numeric* period cell, so empty/null/non-numeric source cells produce no
output row at all (nothing is zero-filled). -/
theorem C1_normalized_rows_fixed_shape_numeric :
    (∀ (data : List (List CellValue)) (config : MatrixConfig)
      (analysis : Option MatrixAnalysis),
      findPeriodColumns ((data.get? config.periodHeaderRow).getD [])
        config.periodHeaders ≠ [] →
      (normalizeMatrix data config analysis).columns = normalizedMatrixColumns
      ∧ ∀ out ∈ (normalizeMatrix data config analysis).data,
        ∃ d c p q b,
          out = [CellValue.str d, CellValue.str c, CellValue.str p,
            CellValue.num q, CellValue.bool b] ∧
          ∃ r, r ∈ data.drop (config.periodHeaderRow + 1) ∧ ∃ pc,
            pc ∈ findPeriodColumns
              ((data.get? config.periodHeaderRow).getD [])
              config.periodHeaders ∧
            cellAt r pc.index = CellValue.num q ∧ p = pc.header) ∧
    (∀ (dept cat : String) (aggR : Bool) (row : List CellValue)
      (status : List Bool) (pcs : List PeriodColumn),
      (emitRow dept cat aggR row status pcs).length =
        pcs.countP fun pc => isNumericCell (cellAt row pc.index)) := by
  constructor
  · intro data config analysis hpc
    refine ⟨normalizeMatrix_columns data config analysis hpc, ?_⟩
    intro out hout
    rw [normalizeMatrix_data data config analysis hpc] at hout
    exact processRows_mem _ _ _ _ _ _ _ _ out hout
  · intro dept cat aggR row status pcs
    exact emitRowAux_length dept cat aggR row status pcs 0

/-- Witness for C1 at the normalizer's own example grid. -/
theorem C1_witness :
    findPeriodColumns ((salesGrid.get? salesCfg.periodHeaderRow).getD [])
      salesCfg.periodHeaders ≠ [] ∧
    ((normalizeMatrix salesGrid salesCfg none).columns
        = normalizedMatrixColumns
      ∧ ∀ out ∈ (normalizeMatrix salesGrid salesCfg none).data,
        ∃ d c p q b,
          out = [CellValue.str d, CellValue.str c, CellValue.str p,
            CellValue.num q, CellValue.bool b] ∧
          ∃ r, r ∈ salesGrid.drop (salesCfg.periodHeaderRow + 1) ∧ ∃ pc,
            pc ∈ findPeriodColumns
              ((salesGrid.get? salesCfg.periodHeaderRow).getD [])
              salesCfg.periodHeaders ∧
            cellAt r pc.index = CellValue.num q ∧ p = pc.header) :=
  ⟨by decide,
    C1_normalized_rows_fixed_shape_numeric.1 salesGrid salesCfg none
      (by decide)⟩

/-- **C2.** When the aggregate analysis is absent or empty (the analyzer
threw, timed out, or returned nothing), `normalizeMatrix` still completes
(it is a total function) and every row it emits in normalized form carries
`is_aggregate = false` (rows of the no-period-column fallback are verbatim
pass-through source rows, with no aggregate flag at all); and
`analyzeMatrixStructure` returns empty `aggregateColumns`, empty
`aggregateRows` and confidence 0 when the LLM call fails or when given zero
data rows, instead of propagating an error. -/
theorem C2_analyzer_failure_graceful :
    (∀ (headers : List CellValue) (dataRows : List (List CellValue))
      (idx : Nat) (llm : Option String) (jp : String → Option JsonVal),
      dataRows = [] ∨ llm = none →
      analyzeMatrixStructure headers dataRows idx llm jp
        = defaultMatrixAnalysis) ∧
    (∀ (data : List (List CellValue)) (config : MatrixConfig)
      (analysis : Option MatrixAnalysis),
      (analysis = none ∨ ∃ a, analysis = some a ∧ a.aggregateColumns = []
        ∧ a.aggregateRows = []) →
      ∀ out ∈ (normalizeMatrix data config analysis).data,
        out.getLast? = some (CellValue.bool false) ∨
          out ∈ data.drop (config.periodHeaderRow + 1)) := by
  constructor
  · intro headers dataRows idx llm jp hor
    rcases hor with rfl | rfl
    · rfl
    · by_cases hd : dataRows = [] <;> simp [analyzeMatrixStructure, hd]
  · intro data config analysis hemp out hout
    by_cases hpc : findPeriodColumns
        ((data.get? config.periodHeaderRow).getD []) config.periodHeaders = []
    · right
      rw [normalizeMatrix_fallback data config analysis hpc,
        createBasicNormalization_data] at hout
      exact hout
    · left
      have hac : (analysis.map (·.aggregateColumns)).getD [] = [] := by
        rcases hemp with rfl | ⟨a, rfl, hc, _⟩
        · rfl
        · simp [hc]
      have har : (analysis.map (·.aggregateRows)).getD [] = [] := by
        rcases hemp with rfl | ⟨a, rfl, _, hr⟩
        · rfl
        · simp [hr]
      rw [normalizeMatrix_data data config analysis hpc, hac, har] at hout
      refine processRows_last_false _ _ _ ?_ _ _ _ _ out hout
      intro x hx
      obtain ⟨p, _, rfl⟩ := List.mem_map.mp hx
      exact periodColStatus_nil p

/-- Witness for C2: a failed LLM call yields the default analysis, and the
example grid normalized without analysis has `is_aggregate = false` on every
row. -/
theorem C2_witness :
    analyzeMatrixStructure [] [[CellValue.num 1]] 2 none (fun _ => none)
      = defaultMatrixAnalysis ∧
    ∀ out ∈ (normalizeMatrix salesGrid salesCfg none).data,
      out.getLast? = some (CellValue.bool false) ∨
        out ∈ salesGrid.drop (salesCfg.periodHeaderRow + 1) :=
  ⟨C2_analyzer_failure_graceful.1 [] [[CellValue.num 1]] 2 none
      (fun _ => none) (Or.inr rfl),
    C2_analyzer_failure_graceful.2 salesGrid salesCfg none (Or.inl rfl)⟩

/-- **C3 counterexample.** A grid whose matrix pre-scan accumulates exactly
60 confidence points (period-header row +40, numeric density +20) is *not*
classified MATRIX — `classifySheet` requires confidence strictly above 60 and
falls back to table scoring, here returning TABLE.  This refutes the claim
that a total of *at least* 60 yields MATRIX. -/
theorem C3_counterexample :
    (scanForMatrixPattern sixtyGrid).confidence = 60 ∧
    (classifySheet sixtyGrid 0).sheetType = SheetType.table := by
  constructor
  · decide
  · decide

/-- **C3 (amended).** `classifySheet` returns MATRIX exactly when the grid is
non-empty and the pre-scan confidence is strictly greater than 60 (so 70 or
90 with the given increments), and in that case it uses the pre-scan's own
period header row; at confidence ≤ 60 (including exactly 60) it falls back
to table scoring. -/
theorem C3_matrix_strictly_above_60 :
    ∀ (data : List (List CellValue)) (r : Nat),
      ((classifySheet data r).sheetType = SheetType.matrix ↔
        data ≠ [] ∧ 60 < (scanForMatrixPattern data).confidence) ∧
      ((classifySheet data r).sheetType = SheetType.matrix →
        (classifySheet data r).periodHeaderRow
          = some (scanForMatrixPattern data).headerRow) := by
  intro data r
  refine ⟨classifySheet_matrix_iff data r, ?_⟩
  intro hm
  obtain ⟨hne, hconf⟩ := (classifySheet_matrix_iff data r).mp hm
  rw [classifySheet_matrix_branch data r hne hconf]

/-- Witness for C3 at a concrete 90-confidence matrix grid. -/
theorem C3_witness :
    (classifySheet salesGrid 0).sheetType = SheetType.matrix ∧
    (classifySheet salesGrid 0).periodHeaderRow
      = some (scanForMatrixPattern salesGrid).headerRow := by
  have h := C3_matrix_strictly_above_60 salesGrid 0
  have hm : (classifySheet salesGrid 0).sheetType = SheetType.matrix :=
    h.1.mpr ⟨by decide, by decide⟩
  exact ⟨hm, h.2 hm⟩

/-- **C4 counterexample.** With `aggregateRows = [1]` on a grid whose second
*substantive* data row ("Cat B") sits behind one blank row, the claim's
"count only substantive rows" reading would flag every Cat B record as an
aggregate.  The code counts the blank row too (the counter is incremented on
every row), so position 1 is the blank row and all four emitted records carry
`is_aggregate = false`. -/
theorem C4_counterexample :
    (normalizeMatrix blankGapGrid blankGapCfg (some rowOneAnalysis)).data =
      [[CellValue.str "Unknown", CellValue.str "Cat A", CellValue.str "Q1",
          CellValue.num 1, CellValue.bool false],
        [CellValue.str "Unknown", CellValue.str "Cat A", CellValue.str "Q2",
          CellValue.num 2, CellValue.bool false],
        [CellValue.str "Unknown", CellValue.str "Cat B", CellValue.str "Q1",
          CellValue.num 3, CellValue.bool false],
        [CellValue.str "Unknown", CellValue.str "Cat B", CellValue.str "Q2",
          CellValue.num 4, CellValue.bool false]] := by
  decide

/-- **C4 (amended).** The 0-based relative row position `normalizeMatrix`
looks up in `aggregateRows` counts *every* grid row after the header — blank
rows and section-marker rows advance the numbering too — and always equals
the absolute offset `rowIdx - periodHeaderRow - 1`: the normalizer is
exactly the variant that indexes rows by that absolute offset alone. -/
theorem C4_row_position_counts_all_rows :
    ∀ (data : List (List CellValue)) (config : MatrixConfig)
      (analysis : Option MatrixAnalysis),
      normalizeMatrix data config analysis
        = normalizeMatrixAbs data config analysis := by
  intro data config analysis
  simp only [normalizeMatrix, normalizeMatrixAbs]
  by_cases hpc : findPeriodColumns
      ((data.get? config.periodHeaderRow).getD []) config.periodHeaders = []
  · rw [if_pos hpc, if_pos hpc]
  · rw [if_neg hpc, if_neg hpc]
    have hinv : ((0 : Nat) : Int) =
        ((config.periodHeaderRow + 1 : Nat) : Int)
          - (config.periodHeaderRow : Int) - 1 := by
      push_cast
      ring
    rw [processRows_eq_abs _ _ _ _ _ _ _ _ hinv]

/-- **C5 counterexample.** `findPeriodColumns` scans the whole header row
with no lower bound at `labelColumnCount`: with `labelColumnCount = 2`, the
header "Total" at column index 0 is still selected as a period column (and
surfaces in the normalized output's `originalHeaders`). -/
theorem C5_counterexample :
    findPeriodColumns totalAtZeroHeader ["Q1", "Q2"] =
      [⟨0, "Total"⟩, ⟨2, "Q1"⟩, ⟨3, "Q2"⟩] ∧
    (normalizeMatrix totalAtZeroGrid totalAtZeroCfg none).originalHeaders =
      ["Total", "Q1", "Q2"] := by
  constructor
  · decide
  · decide

/-- **C5 (amended).** `normalizeMatrix` selects as period columns exactly
those columns — at *any* index, `labelColumnCount` is never consulted —
whose header cell is a string with non-empty trim that either appears in the
config's `periodHeaders` list or matches the period vocabulary
(`^Q[1-4]`, `^H[1-2]`, budget/actual/forecast/total, case-insensitive,
totals included). -/
theorem C5_period_columns_any_index :
    ∀ (headerRow : List CellValue) (ph : List String) (pc : PeriodColumn),
      pc ∈ findPeriodColumns headerRow ph ↔
        ∃ s, headerRow.get? pc.index = some (CellValue.str s) ∧
          jsTrim s ≠ "" ∧ (s ∈ ph ∨ isPeriodLikeHeader s = true) ∧
          pc.header = jsTrim s :=
  findPeriodColumns_mem

/-- **C6.** For every column whose sanitized name matches an identifier-like
pattern (ends in `_id`, `_code`, `_key`, `_ref`, `_no` or `_number`, is
exactly `id`, starts with `id_`, or is exactly sku/upc/isbn,
case-insensitive), the inferred storage type is TEXT (VARCHAR) regardless of
the sampled cell contents — even when every sampled value is numeric. -/
theorem C6_id_like_name_forces_varchar
    (dataRows : List (List CellValue)) (colIndex : Nat) (name : String)
    (h : isIdLikeColumnName name = true) :
    inferColumnType dataRows colIndex (some name) = ColType.varchar := by
  have hne : name ≠ "" := by
    intro he
    subst he
    exact absurd h (by decide)
  simp [inferColumnType, h, hne]

/-- Witness for C6: `rep_id` over purely numeric samples is still VARCHAR. -/
theorem C6_witness :
    isIdLikeColumnName "rep_id" = true ∧
    inferColumnType [[CellValue.num 1], [CellValue.num 2]] 0 (some "rep_id")
      = ColType.varchar :=
  ⟨by decide,
    C6_id_like_name_forces_varchar [[CellValue.num 1], [CellValue.num 2]] 0
      "rep_id" (by decide)⟩

/-- **C7 counterexample.** No input at all makes `classifySheet` return a
matrix with `labelColumnCount = 1`: the narrower one-label-column scan the
claim describes does not exist in the code (the scanner's field is
initialized to 2 and never written again). -/
theorem C7_counterexample :
    ¬ ∃ (data : List (List CellValue)) (r : Nat),
      (classifySheet data r).sheetType = SheetType.matrix ∧
      (classifySheet data r).labelColumnCount = some 1 := by
  rintro ⟨data, r, hm, hl⟩
  rw [classifySheet_matrix_label_two data r hm] at hl
  exact absurd hl (by decide)

/-- **C7 (amended).** Whenever `classifySheet` returns MATRIX, the returned
`labelColumnCount` is 2 — unconditionally, for every grid. -/
theorem C7_label_count_always_two :
    ∀ (data : List (List CellValue)) (r : Nat),
      (classifySheet data r).sheetType = SheetType.matrix →
      (classifySheet data r).labelColumnCount = some 2 :=
  classifySheet_matrix_label_two

/-- Witness for C7 at a concrete matrix-classified grid. -/
theorem C7_witness :
    (classifySheet salesGrid 0).sheetType = SheetType.matrix ∧
    (classifySheet salesGrid 0).labelColumnCount = some 2 :=
  ⟨by decide, C7_label_count_always_two salesGrid 0 (by decide)⟩

/-- **C8.** For every non-empty grid, `detectHeaderRow` returns a row among
the first `min(25, length)` rows whose heuristic score is maximal, and when
several rows attain the maximal score it returns the one with the lowest row
index (the first candidate wins, because the reduce replaces the running
best only on a strictly larger score). -/
theorem C8_best_scoring_row_first_on_ties
    (data : List (List CellValue)) (hne : data ≠ []) :
    (detectHeaderRow data).headerRow < min data.length 25 ∧
    (∀ i < min data.length 25, (scoreRow data i).score ≤
      (scoreRow data (detectHeaderRow data).headerRow).score) ∧
    (∀ i < min data.length 25, (scoreRow data i).score =
      (scoreRow data (detectHeaderRow data).headerRow).score →
        (detectHeaderRow data).headerRow ≤ i) :=
  detectHeaderRow_spec data hne

/-- Witness for C8 on a concrete two-row grid. -/
theorem C8_witness :
    twoRowGrid ≠ [] ∧
    ((detectHeaderRow twoRowGrid).headerRow < min twoRowGrid.length 25 ∧
    (∀ i < min twoRowGrid.length 25, (scoreRow twoRowGrid i).score ≤
      (scoreRow twoRowGrid (detectHeaderRow twoRowGrid).headerRow).score) ∧
    (∀ i < min twoRowGrid.length 25, (scoreRow twoRowGrid i).score =
      (scoreRow twoRowGrid (detectHeaderRow twoRowGrid).headerRow).score →
        (detectHeaderRow twoRowGrid).headerRow ≤ i)) :=
  ⟨by decide, C8_best_scoring_row_first_on_ties twoRowGrid (by decide)⟩

/-- **C9.**  The claim states that the confidence returned by
`detectHeaderRow` always lies in 0..100 — the source's own doc comment on
`HeaderDetectionResult.confidence` says "Confidence score (0-100)".  The
code computes `Math.min(100, Math.round(score / 25 * 100))`, which clamps
only from above: on the single-row grid `[["x", ""]]` the best score is
-13 (single-cell row -15, all-strings +5, short first row -3) and the
returned confidence is -52 < 0, contradicting both the claim and the code's
own documentation. -/
theorem C9_confidence_can_be_negative :
    (detectHeaderRow titleOnlyGrid).confidence = -52 ∧
    (detectHeaderRow titleOnlyGrid).confidence < 0 := by
  constructor
  · decide
  · decide

/-- **C10.** For every grid and config with at least one period column, any
non-empty, non-section-marker data row whose first three cells contain no
string with non-empty trim is dropped entirely by the normalizer's walk: it
emits no output rows for it (the category lookup examines only cell indices
0 through 2) and only advances the row counter — even when its period cells
hold numeric values. -/
theorem C10_stringless_label_row_dropped
    (pcs : List PeriodColumn) (status : List Bool) (aggRows : List Rat)
    (phr : Nat) (row : List CellValue) (rest : List (List CellValue))
    (rowIdx : Nat) (curDept : Option String) (dri : Nat)
    (h1 : isEmptyRow row = false) (h2 : detectSectionMarker row = none)
    (h3 : ∀ i < 3, ∀ s, cellAt row i = CellValue.str s → jsTrim s = "") :
    processRows pcs status aggRows phr (row :: rest) rowIdx curDept dri =
      processRows pcs status aggRows phr rest (rowIdx + 1) curDept
        (dri + 1) :=
  processRows_cons_nocat pcs status aggRows phr row rest rowIdx curDept dri
    h1 h2 (findCategory_eq_none row h3)

/-- Witness for C10: a purely numeric row (`[1, null, 7]`) whose period cell
holds 7 produces no output. -/
theorem C10_witness :
    isEmptyRow numbersOnlyRow = false ∧
    detectSectionMarker numbersOnlyRow = none ∧
    processRows [⟨2, "Q1"⟩] [false] [] 0 [numbersOnlyRow] 1 none 0 =
      processRows [⟨2, "Q1"⟩] [false] [] 0 [] 2 none 1 := by
  refine ⟨by decide, by decide, ?_⟩
  exact C10_stringless_label_row_dropped [⟨2, "Q1"⟩] [false] [] 0
    numbersOnlyRow [] 1 none 0 (by decide) (by decide)
    (by
      intro i hi s hs
      have hc : i = 0 ∨ i = 1 ∨ i = 2 := by omega
      rcases hc with rfl | rfl | rfl <;>
        simp [cellAt, numbersOnlyRow] at hs)
